import Mathlib

/-!
# Verification development for the flare frame-indexed animation engine

Shallow embedding of the runtime core of the flare repository
(packages/runtime/src/animation/easing.ts, which concatenates the easing
library, the enhanced AnimationEngine and the EventTriggerManager, and
packages/runtime/src/renderer.ts, which contains the PathManager and
parseSVGPath).  JavaScript numbers are modelled as rationals extended with
NaN and the two infinities; JavaScript object property maps are modelled as
insertion-ordered association lists; object identity (needed for the
no-mutation claims) is modelled by an explicit store of elements addressed
by natural numbers.  Wall-clock time (performance.now, Date.now,
requestAnimationFrame) is outside the embedding: the tick loop is driven by
the host, and every frame change reaches the trigger machinery through
EventTriggerManager.updateFrame, which is embedded faithfully.
-/

/-! ### Kernel-computable rational arithmetic

The standard `Rat` arithmetic operations do not reduce inside the kernel
(they are compiler intrinsics), while `mkRat`/`Rat.normalize` do.  The
embedding therefore routes every rational computation through the
wrappers below; the lemmas in the theorem section prove them equal to the
standard operations, so symbolic reasoning can switch back to `+`, `*`,
`/`. -/

/-- Kernel-computable rational addition. -/
def qadd (a b : ℚ) : ℚ := mkRat (a.num * b.den + b.num * a.den) (a.den * b.den)

/-- Kernel-computable rational negation. -/
def qneg (a : ℚ) : ℚ := mkRat (-a.num) a.den

/-- Kernel-computable rational subtraction. -/
def qsub (a b : ℚ) : ℚ := qadd a (qneg b)

/-- Kernel-computable rational multiplication. -/
def qmul (a b : ℚ) : ℚ := mkRat (a.num * b.num) (a.den * b.den)

/-- Kernel-computable rational division (division by zero gives 0, as for
the standard `/` on `ℚ`; the JS NaN/infinity cases are handled one level
up, in `JSNum.jdiv`). -/
def qdivQ (a b : ℚ) : ℚ :=
  if b.num < 0 then mkRat (-(a.num * (b.den : ℤ))) (a.den * b.num.natAbs)
  else mkRat (a.num * b.den) (a.den * b.num.natAbs)

/-- Kernel-computable cast of a natural number. -/
def qofNat (n : ℕ) : ℚ := mkRat n 1

/-- JavaScript number semantics restricted to the operations used by the
engine: a rational, NaN, or an infinity.  Negative zero is not
distinguished from zero (no operation in the embedded code observes it). -/
inductive JSNum where
  | num (q : ℚ)
  | nan
  | inf
  | ninf
deriving DecidableEq, Repr

namespace JSNum

/-- JS addition. -/
def jadd : JSNum → JSNum → JSNum
  | num a, num b => num (qadd a b)
  | nan, _ => nan
  | _, nan => nan
  | inf, ninf => nan
  | ninf, inf => nan
  | inf, _ => inf
  | _, inf => inf
  | ninf, _ => ninf
  | _, ninf => ninf

/-- JS negation. -/
def jneg : JSNum → JSNum
  | num a => num (qneg a)
  | nan => nan
  | inf => ninf
  | ninf => inf

/-- JS subtraction. -/
def jsub (a b : JSNum) : JSNum := jadd a (jneg b)

/-- JS multiplication. -/
def jmul : JSNum → JSNum → JSNum
  | num a, num b => num (qmul a b)
  | nan, _ => nan
  | _, nan => nan
  | inf, num b => if b = 0 then nan else if 0 < b then inf else ninf
  | num a, inf => if a = 0 then nan else if 0 < a then inf else ninf
  | ninf, num b => if b = 0 then nan else if 0 < b then ninf else inf
  | num a, ninf => if a = 0 then nan else if 0 < a then ninf else inf
  | inf, inf => inf
  | inf, ninf => ninf
  | ninf, inf => ninf
  | ninf, ninf => inf

/-- JS division (the only case the engine can reach with a zero divisor is
0/0, which is NaN; the nonzero/0 cases give the signed infinities). -/
def jdiv : JSNum → JSNum → JSNum
  | num a, num b =>
      if b = 0 then (if a = 0 then nan else if 0 < a then inf else ninf)
      else num (qdivQ a b)
  | nan, _ => nan
  | _, nan => nan
  | inf, num b => if 0 ≤ b then inf else ninf
  | ninf, num b => if 0 ≤ b then ninf else inf
  | num _, inf => num 0
  | num _, ninf => num 0
  | inf, inf => nan
  | inf, ninf => nan
  | ninf, inf => nan
  | ninf, ninf => nan

/-- JS strict less-than: comparisons involving NaN are false. -/
def jlt : JSNum → JSNum → Bool
  | num a, num b => decide (a < b)
  | nan, _ => false
  | _, nan => false
  | inf, _ => false
  | ninf, inf => true
  | ninf, num _ => true
  | ninf, ninf => false
  | num _, inf => true
  | num _, ninf => false

/-- JS less-or-equal: comparisons involving NaN are false. -/
def jle : JSNum → JSNum → Bool
  | num a, num b => decide (a ≤ b)
  | nan, _ => false
  | _, nan => false
  | ninf, _ => true
  | _, inf => true
  | inf, num _ => false
  | inf, ninf => false
  | num _, ninf => false

/-- JS Math.min: NaN-absorbing. -/
def jmin : JSNum → JSNum → JSNum
  | nan, _ => nan
  | _, nan => nan
  | a, b => if jle a b then a else b

/-- JS Math.max: NaN-absorbing. -/
def jmax : JSNum → JSNum → JSNum
  | nan, _ => nan
  | _, nan => nan
  | a, b => if jle a b then b else a

/-- JS Math.round (round half toward positive infinity). -/
def jround : JSNum → JSNum
  | num q => num (((qadd q (mkRat 1 2)).floor : ℤ) : ℚ)
  | nan => nan
  | inf => inf
  | ninf => ninf

end JSNum

open JSNum

/-- A JavaScript property value as stored in an element's open property
map.  Objects and property maps are insertion-ordered association lists,
matching JS object key order.  Element children are not modelled (no
embedded operation reads them). -/
inductive PValue where
  | pnum (n : JSNum)
  | pstr (s : String)
  | pbool (b : Bool)
  | parr (elems : List PValue)
  | pobj (fields : List (String × PValue))

/-- Insertion-ordered association-list map, as used for JS objects and
Maps: the first binding of a key is replaced in place, a new key is
appended at the end. -/
def setKey {β : Type} : List (String × β) → String → β → List (String × β)
  | [], k, v => [(k, v)]
  | (k0, v0) :: rest, k, v =>
      if k0 = k then (k0, v) :: rest else (k0, v0) :: setKey rest k v

/-- First-match association-list lookup (JS Map.get / object read). -/
def lookupKey {β : Type} : List (String × β) → String → Option β
  | [], _ => none
  | (k0, v0) :: rest, k => if k0 = k then some v0 else lookupKey rest k

/-- JS falsiness of a property value (used for the `|| 0` and
`|| 'default'` patterns in the source). -/
def PValue.falsy : PValue → Bool
  | .pnum (.num q) => q = 0
  | .pnum .nan => true
  | .pnum _ => false
  | .pstr s => s = ""
  | .pbool b => !b
  | .parr _ => false
  | .pobj _ => false

/-- `path.split('.')` (plain-string split, no run collapsing; consecutive
dots give empty fields, as in JS). -/
def splitOnDot : List Char → List Char → List String
  | [], acc => [String.mk acc.reverse]
  | c :: cs, acc =>
      if c = '.' then String.mk acc.reverse :: splitOnDot cs []
      else splitOnDot cs (c :: acc)

/-- `AnimationEngine.getNestedProperty`: walk a dotted path through nested
objects; a missing key or a primitive intermediate yields undefined (the
JS `in` operator would throw a TypeError on a primitive intermediate; the
embedding returns none there, and no embedded claim exercises that case). -/
def getNestedWalk : List String → PValue → Option PValue
  | [], v => some v
  | p :: rest, .pobj fields =>
      match lookupKey fields p with
      | some v2 => getNestedWalk rest v2
      | none => none
  | _ :: _, _ => none

/-- `AnimationEngine.getNestedProperty` on a property map. -/
def getNestedProperty (props : List (String × PValue)) (path : String) : Option PValue :=
  getNestedWalk (splitOnDot path.toList []) (.pobj props)

/-- `AnimationEngine.setNestedProperty`: walk the dotted path, creating
missing intermediate objects, and write the final key.  A primitive
intermediate is replaced by a fresh object (the JS original would throw a
TypeError at the `in` test; no embedded claim exercises that case). -/
def setNestedWalk : List String → List (String × PValue) → PValue → List (String × PValue)
  | [], fields, _ => fields
  | [p], fields, v => setKey fields p v
  | p :: q :: rest, fields, v =>
      let child := match lookupKey fields p with
        | some (.pobj f2) => f2
        | _ => []
      setKey fields p (.pobj (setNestedWalk (q :: rest) child v))

/-- `AnimationEngine.setNestedProperty` on a property map. -/
def setNestedProperty (props : List (String × PValue)) (path : String) (v : PValue) :
    List (String × PValue) :=
  setNestedWalk (splitOnDot path.toList []) props v

/-! ## Easing library (class Easing in easing.ts)

Each easing is a function on JS numbers; NaN propagates through the
arithmetic and makes every comparison false, exactly as in JS.  The
registry below contains the rational-valued entries of the source's
easingMap; the sine/expo/circ/elastic entries are transcendental and are
omitted from the embedding (no claim mentions them, and looking one of
them up is not modelled faithfully). -/

namespace Easing

def linear : JSNum → JSNum := fun t => t

def easeInQuad : JSNum → JSNum := fun t => jmul t t

def easeOutQuad : JSNum → JSNum := fun t => jmul t (jsub (num 2) t)

def easeInOutQuad : JSNum → JSNum := fun t =>
  if jlt t (num (mkRat 1 2)) then jmul (jmul (num 2) t) t
  else jadd (num (mkRat (-1) 1)) (jmul (jsub (num 4) (jmul (num 2) t)) t)

def easeInCubic : JSNum → JSNum := fun t => jmul (jmul t t) t

/-- `(--t) * t * t + 1` with t already decremented. -/
def easeOutCubic : JSNum → JSNum := fun t =>
  let u := jsub t (num 1)
  jadd (jmul (jmul u u) u) (num 1)

def easeInOutCubic : JSNum → JSNum := fun t =>
  if jlt t (num (mkRat 1 2)) then jmul (jmul (jmul (num 4) t) t) t
  else
    jadd (jmul (jmul (jsub t (num 1)) (jsub (jmul (num 2) t) (num 2)))
      (jsub (jmul (num 2) t) (num 2))) (num 1)

def easeInQuart : JSNum → JSNum := fun t => jmul (jmul (jmul t t) t) t

def easeOutQuart : JSNum → JSNum := fun t =>
  let u := jsub t (num 1)
  jsub (num 1) (jmul (jmul (jmul u u) u) u)

def easeInOutQuart : JSNum → JSNum := fun t =>
  if jlt t (num (mkRat 1 2)) then jmul (jmul (jmul (jmul (num 8) t) t) t) t
  else
    let u := jsub t (num 1)
    jsub (num 1) (jmul (jmul (jmul (jmul (num 8) u) u) u) u)

def easeInQuint : JSNum → JSNum := fun t => jmul (jmul (jmul (jmul t t) t) t) t

def easeOutQuint : JSNum → JSNum := fun t =>
  let u := jsub t (num 1)
  jadd (num 1) (jmul (jmul (jmul (jmul u u) u) u) u)

def easeInOutQuint : JSNum → JSNum := fun t =>
  if jlt t (num (mkRat 1 2)) then jmul (jmul (jmul (jmul (jmul (num 16) t) t) t) t) t
  else
    let u := jsub t (num 1)
    jadd (num 1) (jmul (jmul (jmul (jmul (jmul (num 16) u) u) u) u) u)

/-- Back-easing overshoot constant s = 1.70158. -/
def backS : ℚ := mkRat 170158 100000

def easeInBack : JSNum → JSNum := fun t =>
  jmul (jmul t t) (jsub (jmul (num (qadd backS 1)) t) (num backS))

def easeOutBack : JSNum → JSNum := fun t =>
  let u := jsub t (num 1)
  jadd (jmul (jmul u u) (jadd (jmul (num (qadd backS 1)) u) (num backS))) (num 1)

def easeInOutBack : JSNum → JSNum := fun t =>
  let s : ℚ := qmul backS (mkRat 1525 1000)
  let u := jmul t (num 2)
  if jlt u (num 1) then
    jmul (num (mkRat 1 2)) (jmul (jmul u u) (jsub (jmul (num (qadd s 1)) u) (num s)))
  else
    let v := jsub u (num 2)
    jmul (num (mkRat 1 2))
      (jadd (jmul (jmul v v) (jadd (jmul (num (qadd s 1)) v) (num s))) (num 2))

def easeOutBounce : JSNum → JSNum := fun t =>
  if jlt t (num (mkRat 4 11)) then jmul (num (mkRat 121 16)) (jmul t t)
  else if jlt t (num (mkRat 8 11)) then
    let u := jsub t (num (mkRat 6 11))
    jadd (jmul (num (mkRat 121 16)) (jmul u u)) (num (mkRat 3 4))
  else if jlt t (num (mkRat 10 11)) then
    let u := jsub t (num (mkRat 9 11))
    jadd (jmul (num (mkRat 121 16)) (jmul u u)) (num (mkRat 15 16))
  else
    let u := jsub t (num (mkRat 21 22))
    jadd (jmul (num (mkRat 121 16)) (jmul u u)) (num (mkRat 63 64))

def easeInBounce : JSNum → JSNum := fun t =>
  jsub (num 1) (easeOutBounce (jsub (num 1) t))

def easeInOutBounce : JSNum → JSNum := fun t =>
  if jlt t (num (mkRat 1 2)) then jmul (easeInBounce (jmul t (num 2))) (num (mkRat 1 2))
  else
    jadd (jmul (easeOutBounce (jsub (jmul t (num 2)) (num 1))) (num (mkRat 1 2)))
      (num (mkRat 1 2))

/-- The named registry of `Easing.getEasingFunction` (rational-valued
entries; entry order as in the source). -/
def easingMap : List (String × (JSNum → JSNum)) :=
  [("linear", linear),
   ("ease-in", easeInQuad),
   ("ease-out", easeOutQuad),
   ("ease-in-out", easeInOutQuad),
   ("ease-in-quad", easeInQuad),
   ("ease-out-quad", easeOutQuad),
   ("ease-in-out-quad", easeInOutQuad),
   ("ease-in-cubic", easeInCubic),
   ("ease-out-cubic", easeOutCubic),
   ("ease-in-out-cubic", easeInOutCubic),
   ("ease-in-quart", easeInQuart),
   ("ease-out-quart", easeOutQuart),
   ("ease-in-out-quart", easeInOutQuart),
   ("ease-in-quint", easeInQuint),
   ("ease-out-quint", easeOutQuint),
   ("ease-in-out-quint", easeInOutQuint),
   ("ease-in-back", easeInBack),
   ("ease-out-back", easeOutBack),
   ("ease-in-out-back", easeInOutBack),
   ("ease-in-bounce", easeInBounce),
   ("ease-out-bounce", easeOutBounce),
   ("ease-in-out-bounce", easeInOutBounce)]

/-- `Easing.getEasingFunction`: named lookup, unknown names fall back to
linear (`easingMap[name] || Easing.linear`). -/
def getEasingFunction (name : String) : JSNum → JSNum :=
  match lookupKey easingMap name with
  | some f => f
  | none => linear

end Easing

/-! ## Property interpolator (AnimationEngine.applyAnimations and helpers) -/

/-- A keyframe as in the shared Timeline types: frame offset relative to
the containing Frame.startFrame, a value, and an easing name. -/
structure Keyframe where
  frame : ℚ
  value : PValue
  easing : String

/-- A property animation: a dotted property path and its keyframes. -/
structure PropertyAnimation where
  property : String
  keyframes : List Keyframe

/-- An element as the engine sees it.  Children are not modelled (no
embedded operation reads them); `animations` is optional as in the shared
Element type. -/
structure ElementObj where
  id : String
  etype : String
  properties : List (String × PValue)
  animations : Option (List PropertyAnimation)

/-- Default element used for out-of-range store reads (unreachable under
the well-formedness hypotheses of the theorems below). -/
def dfltElem : ElementObj := ⟨"", "", [], none⟩

instance : Inhabited ElementObj := ⟨dfltElem⟩

/-- `hex.replace('#','')`: remove the first occurrence of '#'. -/
def removeFirstHash (s : String) : String :=
  match s.toList.splitOnP (· = '#') with
  | [] => s
  | [_] => s
  | a :: b :: rest => String.mk (a ++ (List.intercalate ['#'] (b :: rest)))

/-- One hex digit value, case-insensitive. -/
def hexDigitVal (c : Char) : Option ℕ :=
  if '0' ≤ c ∧ c ≤ '9' then some (c.toNat - '0'.toNat)
  else if 'a' ≤ c ∧ c ≤ 'f' then some (c.toNat - 'a'.toNat + 10)
  else if 'A' ≤ c ∧ c ≤ 'F' then some (c.toNat - 'A'.toNat + 10)
  else none

/-- `parseInt(s, 16)`: value of the maximal leading run of hex digits,
NaN if there is none (leading whitespace/sign handling is not modelled:
the engine only passes substrings of a user colour string here). -/
def parseIntHexGo : List Char → ℕ → Bool → JSNum
  | [], acc, seen => if seen then .num acc else .nan
  | c :: rest, acc, seen =>
      match hexDigitVal c with
      | some d => parseIntHexGo rest (acc * 16 + d) true
      | none => if seen then .num acc else .nan

def parseIntHex (s : String) : JSNum := parseIntHexGo s.toList 0 false

/-- parseColor inside `AnimationEngine.interpolateColor`: strip '#',
3-digit shorthand doubles each digit, otherwise take three 2-char
substrings. -/
def parseColor (hexIn : String) : List JSNum :=
  let hex := removeFirstHash hexIn
  let cs := hex.toList
  if cs.length = 3 then
    cs.map (fun c => parseIntHex (String.mk [c, c]))
  else
    [parseIntHex (String.mk (cs.take 2)),
     parseIntHex (String.mk ((cs.drop 2).take 2)),
     parseIntHex (String.mk ((cs.drop 4).take 2))]

/-- `c.toString(16)` for the clamped rounded channel (an integer in
[0,255] or NaN). -/
def channelToHex : JSNum → String
  | .num q =>
      if q.den = 1 ∧ 0 ≤ q.num then String.mk (Nat.toDigits 16 q.num.toNat)
      else "?"
  | .nan => "NaN"
  | .inf => "Infinity"
  | .ninf => "-Infinity"

/-- `.padStart(2, '0')`. -/
def padStart2 (s : String) : String :=
  if s.length < 2 then String.mk (List.replicate (2 - s.length) '0' ++ s.toList) else s

/-- `AnimationEngine.interpolateColor`. -/
def interpolateColor (color1 color2 : String) (progress : JSNum) : String :=
  let rgb1 := parseColor color1
  let rgb2 := parseColor color2
  let result := (List.range rgb1.length).map (fun i =>
    let component := rgb1.getD i .nan
    let target := rgb2.getD i .nan
    let interpolated := jround (jadd component (jmul (jsub target component) progress))
    jmax (.num 0) (jmin (.num 255) interpolated))
  "#" ++ String.join (result.map (fun c => padStart2 (channelToHex c)))

/-- `keyframe.easing || 'linear'` and `group.easing || 'ease-in-out'`:
the empty string is falsy. -/
def orDefault (s d : String) : String := if s = "" then d else s

/-- The bracketing-keyframe search of `applyAnimations`: the first
adjacent pair whose absolute frame range contains the current frame,
inclusive at both ends. -/
def findBracket (frameStart cf : ℚ) : List Keyframe → Option (Keyframe × Keyframe)
  | k1 :: k2 :: rest =>
      if qadd frameStart k1.frame ≤ cf ∧ cf ≤ qadd frameStart k2.frame then some (k1, k2)
      else findBracket frameStart cf (k2 :: rest)
  | _ => none

/-- Elementwise array blend of `applyAnimations` (non-numeric entries pass
through using the end value). -/
def blendArr (p : JSNum) : List PValue → List PValue → List PValue
  | [], _ => []
  | _ :: _, [] => []
  | x :: xs, y :: ys =>
      (match x, y with
       | .pnum a, .pnum b => .pnum (jadd a (jmul (jsub b a) p))
       | _, _ => y) :: blendArr p xs ys

/-- The per-animation body of `applyAnimations`: find the bracket, compute
eased progress (division by a zero-length segment follows JS semantics and
yields NaN), and interpolate by value type; unhandled type pairings leave
the property untouched. -/
def applyOneAnimation (frameStart cf : ℚ) (props : List (String × PValue))
    (anim : PropertyAnimation) : List (String × PValue) :=
  match findBracket frameStart cf anim.keyframes with
  | none => props
  | some (k1, k2) =>
      let s := qadd frameStart k1.frame
      let e := qadd frameStart k2.frame
      let progress := jdiv (.num (qsub cf s)) (.num (qsub e s))
      let easedProgress := Easing.getEasingFunction (orDefault k1.easing "linear") progress
      match k1.value, k2.value with
      | .pnum a, .pnum b =>
          setNestedProperty props anim.property (.pnum (jadd a (jmul (jsub b a) easedProgress)))
      | .pstr a, .pstr b =>
          if a.startsWith "#" ∧ b.startsWith "#" then
            setNestedProperty props anim.property (.pstr (interpolateColor a b easedProgress))
          else props
      | .parr xs, .parr ys =>
          if xs.length = ys.length then
            setNestedProperty props anim.property (.parr (blendArr easedProgress xs ys))
          else props
      | _, _ => props

/-- The per-element body of `applyAnimations`: the source deep-clones the
element first (in this value-level semantics the clone is the value
itself; aliasing is treated by the store model below) and then folds the
property writes over its animations. -/
def interpolateElement (frameStart cf : ℚ) (e : ElementObj) : ElementObj :=
  match e.animations with
  | none => e
  | some anims =>
      { e with properties := anims.foldl (applyOneAnimation frameStart cf) e.properties }

/-! ## Timeline and element store

JS object identity is modelled by a store (heap) of elements addressed by
position; timeline frames hold addresses.  `JSON.parse(JSON.stringify(e))`
allocates a fresh address holding the same value; in-place property writes
are `List.set` at an address. -/

/-- The element store: address = list index, allocation = append. -/
abbrev Store := List ElementObj

/-- A Frame segment of a layer (elements by store address). -/
structure TFrame where
  startFrame : ℚ
  duration : ℚ
  elemAddrs : List ℕ

/-- A layer. -/
structure TLayer where
  id : String
  ltype : String
  visible : Bool
  locked : Bool
  frames : List TFrame

/-- The Timeline container fields the engine reads. -/
structure TimelineM where
  frameRate : ℚ
  duration : ℚ
  layers : List TLayer

/-- `AnimationEngine.findActiveFrame`: first frame whose span contains the
current frame (inclusive start, exclusive end). -/
def findActiveFrame (cf : ℚ) : List TFrame → Option TFrame
  | [] => none
  | fr :: rest =>
      if fr.startFrame ≤ cf ∧ cf < qadd fr.startFrame fr.duration then some fr
      else findActiveFrame cf rest

/-- `AnimationEngine.applyAnimations` over the store: each element is
deep-cloned (fresh address) and the clone receives the interpolated
property writes; returns the new store and the clone addresses in order. -/
def applyAnimationsStore (frameStart cf : ℚ) : List ℕ → Store → Store × List ℕ
  | [], store => (store, [])
  | a :: rest, store =>
      let obj := store.getD a dfltElem
      let clone := interpolateElement frameStart cf obj
      let na := store.length
      let r := applyAnimationsStore frameStart cf rest (store ++ [clone])
      (r.1, na :: r.2)

/-! ## Path engine (PathManager and path types in renderer.ts/pathing.ts)

Coordinates are JS numbers (parseSVGPath can produce NaN for malformed
parameters; a missing parameter, undefined in JS, is conflated with NaN).
Math.sqrt, Math.atan2 and Math.PI are transcendental, so they enter the
embedding as parameters (`RealOps`); every theorem about the path engine
holds for all interpretations of these parameters. -/

/-- An SVG path command (absolute commands only, as in the source). -/
inductive PathCmd where
  | moveTo (x y : JSNum)
  | lineTo (x y : JSNum)
  | curveTo (x1 y1 x2 y2 x y : JSNum)
  | quadTo (x1 y1 x y : JSNum)
  | arcTo (rx ry rotation : JSNum) (largeArc sweep : Bool) (x y : JSNum)
  | close
deriving DecidableEq, Repr

/-- A registered path (called Path in the source; renamed VPath because
Mathlib already defines Path). -/
structure VPath where
  id : String
  commands : List PathCmd
  closed : Bool

/-- A fractional anchor point. -/
structure PPoint where
  x : ℚ
  y : ℚ

/-- Path animation options. -/
structure PathAnimationOptions where
  pathId : String
  startOffset : ℚ
  endOffset : ℚ
  orient : Bool
  alignOrigin : Option PPoint
  easing : String

/-- A path animation binding an element to a path over a frame window. -/
structure PathAnimation where
  elementId : String
  startFrame : ℚ
  duration : ℚ
  options : PathAnimationOptions

/-- The PathManager registries. -/
structure PathMgr where
  paths : List (String × VPath)
  pathAnimations : List PathAnimation

/-- The transcendental hosts of the path engine, abstracted: Math.sqrt,
Math.atan2 and Math.PI. -/
structure RealOps where
  sqrtFn : JSNum → JSNum
  atan2Fn : JSNum → JSNum → JSNum
  piVal : JSNum

/-- A measured path segment (PathSegment in the source). -/
inductive Seg where
  | line (x0 y0 x1 y1 : JSNum) (len : JSNum)
  | cubic (x0 y0 x1 y1 x2 y2 x3 y3 : JSNum) (len : JSNum)
  | quad (x0 y0 x1 y1 x2 y2 : JSNum) (len : JSNum)
  | arc (x0 y0 x1 y1 rx ry rotation : JSNum) (largeArc sweep : Bool) (len : JSNum)

/-- Segment length field. -/
def Seg.len : Seg → JSNum
  | .line _ _ _ _ l => l
  | .cubic _ _ _ _ _ _ _ _ l => l
  | .quad _ _ _ _ _ _ l => l
  | .arc _ _ _ _ _ _ _ _ _ l => l

/-- `PathManager.distance`: Euclidean distance via the sqrt parameter. -/
def jdistance (ops : RealOps) (x1 y1 x2 y2 : JSNum) : JSNum :=
  let dx := jsub x2 x1
  let dy := jsub y2 y1
  ops.sqrtFn (jadd (jmul dx dx) (jmul dy dy))

/-- Point of a cubic Bezier in Bernstein form at parameter t. -/
def cubicPoint (x0 y0 x1 y1 x2 y2 x3 y3 t : JSNum) : JSNum × JSNum :=
  let mt := jsub (num 1) t
  let mt2 := jmul mt mt
  let mt3 := jmul mt2 mt
  let t2 := jmul t t
  let t3 := jmul t2 t
  (jadd (jadd (jmul mt3 x0) (jmul (jmul (jmul (num 3) mt2) t) x1))
     (jadd (jmul (jmul (jmul (num 3) mt) t2) x2) (jmul t3 x3)),
   jadd (jadd (jmul mt3 y0) (jmul (jmul (jmul (num 3) mt2) t) y1))
     (jadd (jmul (jmul (jmul (num 3) mt) t2) y2) (jmul t3 y3)))

/-- `PathManager.estimateCubicBezierLength`: 10-sample polyline length. -/
def estimateCubicBezierLength (ops : RealOps) (x0 y0 x1 y1 x2 y2 x3 y3 : JSNum) : JSNum :=
  let step := fun (acc : JSNum × JSNum × JSNum) (i : ℕ) =>
    let t : JSNum := num (mkRat (i + 1 : ℕ) 10)
    let (x, y) := cubicPoint x0 y0 x1 y1 x2 y2 x3 y3 t
    (jadd acc.1 (jdistance ops acc.2.1 acc.2.2 x y), x, y)
  ((List.range 10).foldl step (num 0, x0, y0)).1

/-- Point of a quadratic Bezier in Bernstein form at parameter t. -/
def quadPoint (x0 y0 x1 y1 x2 y2 t : JSNum) : JSNum × JSNum :=
  let mt := jsub (num 1) t
  let mt2 := jmul mt mt
  let t2 := jmul t t
  (jadd (jadd (jmul mt2 x0) (jmul (jmul (jmul (num 2) mt) t) x1)) (jmul t2 x2),
   jadd (jadd (jmul mt2 y0) (jmul (jmul (jmul (num 2) mt) t) y1)) (jmul t2 y2))

/-- `PathManager.estimateQuadraticBezierLength`: 10-sample polyline length. -/
def estimateQuadraticBezierLength (ops : RealOps) (x0 y0 x1 y1 x2 y2 : JSNum) : JSNum :=
  let step := fun (acc : JSNum × JSNum × JSNum) (i : ℕ) =>
    let t : JSNum := num (mkRat (i + 1 : ℕ) 10)
    let (x, y) := quadPoint x0 y0 x1 y1 x2 y2 t
    (jadd acc.1 (jdistance ops acc.2.1 acc.2.2 x y), x, y)
  ((List.range 10).foldl step (num 0, x0, y0)).1

/-- `PathManager.estimateArcLength`: chord length times 1.5 (documented
rough approximation). -/
def estimateArcLength (ops : RealOps) (x0 y0 x1 y1 : JSNum) : JSNum :=
  jmul (jdistance ops x0 y0 x1 y1) (num (mkRat 3 2))

/-- `PathManager.calculatePathSegments`: reduce a command list to measured
segments, tracking the pen and subpath start. -/
def calcSegsGo (ops : RealOps) : List PathCmd → JSNum → JSNum → JSNum → JSNum → List Seg
  | [], _, _, _, _ => []
  | c :: rest, curX, curY, startX, startY =>
      match c with
      | .moveTo x y => calcSegsGo ops rest x y x y
      | .lineTo x y =>
          .line curX curY x y (jdistance ops curX curY x y) ::
            calcSegsGo ops rest x y startX startY
      | .curveTo x1 y1 x2 y2 x y =>
          .cubic curX curY x1 y1 x2 y2 x y
              (estimateCubicBezierLength ops curX curY x1 y1 x2 y2 x y) ::
            calcSegsGo ops rest x y startX startY
      | .quadTo x1 y1 x y =>
          .quad curX curY x1 y1 x y
              (estimateQuadraticBezierLength ops curX curY x1 y1 x y) ::
            calcSegsGo ops rest x y startX startY
      | .arcTo rx ry rot la sw x y =>
          .arc curX curY x y rx ry rot la sw (estimateArcLength ops curX curY x y) ::
            calcSegsGo ops rest x y startX startY
      | .close =>
          .line curX curY startX startY (jdistance ops curX curY startX startY) ::
            calcSegsGo ops rest startX startY startX startY

def calculatePathSegments (ops : RealOps) (p : VPath) : List Seg :=
  calcSegsGo ops p.commands (num 0) (num 0) (num 0) (num 0)

/-- `PathManager.getPointOnSegment`: position and tangent at a clamped
local parameter. -/
def getPointOnSegment (ops : RealOps) (seg : Seg) (offIn : JSNum) :
    (JSNum × JSNum) × Option JSNum :=
  let off := jmax (num 0) (jmin (num 1) offIn)
  match seg with
  | .line x0 y0 x1 y1 _ =>
      ((jadd x0 (jmul (jsub x1 x0) off), jadd y0 (jmul (jsub y1 y0) off)),
       some (ops.atan2Fn (jsub y1 y0) (jsub x1 x0)))
  | .cubic x0 y0 x1 y1 x2 y2 x3 y3 _ =>
      let pt := cubicPoint x0 y0 x1 y1 x2 y2 x3 y3 off
      let mt := jsub (num 1) off
      let mt2 := jmul mt mt
      let t2 := jmul off off
      let dx := jadd (jadd (jmul (jmul (num 3) mt2) (jsub x1 x0))
          (jmul (jmul (jmul (num 6) mt) off) (jsub x2 x1))) (jmul (jmul (num 3) t2) (jsub x3 x2))
      let dy := jadd (jadd (jmul (jmul (num 3) mt2) (jsub y1 y0))
          (jmul (jmul (jmul (num 6) mt) off) (jsub y2 y1))) (jmul (jmul (num 3) t2) (jsub y3 y2))
      (pt, some (ops.atan2Fn dy dx))
  | .quad x0 y0 x1 y1 x2 y2 _ =>
      let pt := quadPoint x0 y0 x1 y1 x2 y2 off
      let mt := jsub (num 1) off
      let dx := jmul (num 2) (jadd (jmul mt (jsub x1 x0)) (jmul off (jsub x2 x1)))
      let dy := jmul (num 2) (jadd (jmul mt (jsub y1 y0)) (jmul off (jsub y2 y1)))
      (pt, some (ops.atan2Fn dy dx))
  | .arc x0 y0 x1 y1 _ _ _ _ _ _ =>
      ((jadd x0 (jmul (jsub x1 x0) off), jadd y0 (jmul (jsub y1 y0) off)), none)

/-- x/y fields of the last command, used by the fallback of
`getPointAtOffset` (the close command has no coordinates, and an empty
command list would make the JS source throw; the embedding returns the
origin there, which no claim exercises). -/
def cmdXY : PathCmd → JSNum × JSNum
  | .moveTo x y => (x, y)
  | .lineTo x y => (x, y)
  | .curveTo _ _ _ _ x y => (x, y)
  | .quadTo _ _ x y => (x, y)
  | .arcTo _ _ _ _ _ x y => (x, y)
  | .close => (num 0, num 0)

/-- The segment walk of `getPointAtOffset`. -/
def walkSegs (ops : RealOps) (target : JSNum) :
    JSNum → List Seg → Option ((JSNum × JSNum) × Option JSNum)
  | _, [] => none
  | traveled, seg :: rest =>
      if jle target (jadd traveled seg.len) then
        some (getPointOnSegment ops seg (jdiv (jsub target traveled) seg.len))
      else walkSegs ops target (jadd traveled seg.len) rest

/-- `PathManager.getPointAtOffset`. -/
def getPointAtOffset (ops : RealOps) (p : VPath) (offset : JSNum) :
    (JSNum × JSNum) × Option JSNum :=
  let segs := calculatePathSegments ops p
  let totalLength := segs.foldl (fun s g => jadd s g.len) (num 0)
  let target := jmul totalLength (jmax (num 0) (jmin (num 1) offset))
  match walkSegs ops target (num 0) segs with
  | some r => r
  | none =>
      match p.commands.getLast? with
      | some c => (cmdXY c, none)
      | none => ((num 0, num 0), none)

/-- The private `applyEasing` of PathManager (its own 4-entry switch,
default progress). -/
def pathApplyEasing (progress : JSNum) (easingName : String) : JSNum :=
  if easingName = "linear" then progress
  else if easingName = "ease-in" then jmul progress progress
  else if easingName = "ease-out" then jmul progress (jsub (num 2) progress)
  else if easingName = "ease-in-out" then
    (if jlt progress (num (mkRat 1 2)) then jmul (jmul (num 2) progress) progress
     else jadd (num (mkRat (-1) 1)) (jmul (jsub (num 4) (jmul (num 2) progress)) progress))
  else progress

/-- `element.properties.width || 0` as a number usable in multiplication:
falsy values give 0; a truthy non-number would be coerced by JS, which is
not modelled (no claim exercises it) and becomes NaN. -/
def propAsNum : Option PValue → JSNum
  | none => num 0
  | some v => if v.falsy then num 0 else (match v with | .pnum n => n | _ => .nan)

/-- The per-animation element update of `PathManager.applyPathAnimations`:
position from the path point minus the alignment offset, rotation when
orienting and a tangent exists. -/
def pathUpdateElement (ops : RealOps) (p : VPath) (anim : PathAnimation) (cf : ℚ)
    (obj : ElementObj) : ElementObj :=
  let timeProgress := jdiv (num (qsub cf anim.startFrame)) (num anim.duration)
  let eased := pathApplyEasing timeProgress (orDefault anim.options.easing "linear")
  let pathOffset := jadd (num anim.options.startOffset)
    (jmul (num (qsub anim.options.endOffset anim.options.startOffset)) eased)
  let pa := getPointAtOffset ops p pathOffset
  let alignX : ℚ := (anim.options.alignOrigin.map PPoint.x).getD 0
  let alignY : ℚ := (anim.options.alignOrigin.map PPoint.y).getD 0
  let props1 := setKey obj.properties "x"
    (.pnum (jsub pa.1.1 (jmul (propAsNum (lookupKey obj.properties "width")) (num alignX))))
  let props2 := setKey props1 "y"
    (.pnum (jsub pa.1.2 (jmul (propAsNum (lookupKey obj.properties "height")) (num alignY))))
  let props3 :=
    match anim.options.orient, pa.2 with
    | true, some angle =>
        setKey props2 "rotation" (.pnum (jmul angle (jdiv (num 180) ops.piVal)))
    | _, _ => props2
  { obj with properties := props3 }

/-- `PathManager.applyPathAnimations` over the store: build the id-to-
element map from the passed (clone) addresses, then for each animation
whose window contains the frame, write position (and possibly rotation)
in place at the mapped address. -/
def applyPathAnimationsStore (ops : RealOps) (pm : PathMgr) (cf : ℚ)
    (addrs : List ℕ) (store : Store) : Store :=
  let emap := addrs.foldl (fun m a => setKey m (store.getD a dfltElem).id a) []
  pm.pathAnimations.foldl (fun st anim =>
    if anim.startFrame ≤ cf ∧ cf < qadd anim.startFrame anim.duration then
      match lookupKey emap anim.elementId with
      | none => st
      | some a =>
          match lookupKey pm.paths anim.options.pathId with
          | none => st
          | some p => st.set a (pathUpdateElement ops p anim cf (st.getD a dfltElem))
    else st) store

/-- `AnimationEngine.getCurrentElements` over the layer list: skip
invisible layers, interpolate the active frame's elements into fresh
clones, apply path animations to the clones, and concatenate the clone
addresses in layer order. -/
def getCurrentElementsGo (ops : RealOps) (pm : PathMgr) (cf : ℚ) :
    List TLayer → Store → Store × List ℕ
  | [], store => (store, [])
  | layer :: rest, store =>
      if layer.visible then
        match findActiveFrame cf layer.frames with
        | some fr =>
            let r1 := applyAnimationsStore fr.startFrame cf fr.elemAddrs store
            let st2 := applyPathAnimationsStore ops pm cf r1.2 r1.1
            let r2 := getCurrentElementsGo ops pm cf rest st2
            (r2.1, r1.2 ++ r2.2)
        | none => getCurrentElementsGo ops pm cf rest store
      else getCurrentElementsGo ops pm cf rest store

/-- `AnimationEngine.getCurrentElements` (store semantics). -/
def getCurrentElementsStore (ops : RealOps) (tl : TimelineM) (pm : PathMgr)
    (cf : ℚ) (store : Store) : Store × List ℕ :=
  getCurrentElementsGo ops pm cf tl.layers store

/-! ## Event trigger manager (events.ts)

Handlers are data of an arbitrary type; a dispatch is recorded as the
event name together with the handler list invoked for it, in order.
Handler bodies are interpreted by the caller (for claim C6 through a
`run` function with JS try/catch semantics); timestamps (Date.now) and
event payloads are outside the embedding. -/

/-- The tagged union of trigger kinds (interfaces FrameEventTrigger,
RangeEventTrigger, PlaybackEventTrigger, InteractionEventTrigger,
CustomEventTrigger). -/
inductive TriggerKind where
  | frameEnter (frame : ℚ)
  | frameExit (frame : ℚ)
  | rangeEnter (startFrame endFrame : ℚ)
  | rangeExit (startFrame endFrame : ℚ)
  | play
  | pause
  | stop
  | loop
  | click (elementId : String)
  | hover (elementId : String)
  | dragStart (elementId : String)
  | dragEnd (elementId : String)
  | custom (eventName : String)
deriving DecidableEq, Repr

/-- An event trigger: id, the action (event name dispatched on fire) and
its kind; the optional parameters payload is not modelled. -/
structure Trigger where
  id : String
  action : String
  kind : TriggerKind
deriving DecidableEq, Repr

/-- EventTriggerManager state: registered triggers, the insertion-ordered
handler map, the active range-trigger id set (insertion-ordered, as a JS
Set), and the previous/current frame. -/
structure Mgr (α : Type) where
  triggers : List Trigger
  handlers : List (String × List α)
  activeRangeTriggers : List String
  currentFrame : ℚ
  previousFrame : ℚ

/-- A fresh manager. -/
def Mgr.empty (α : Type) : Mgr α := ⟨[], [], [], 0, 0⟩

namespace Mgr

variable {α : Type}

/-- `registerTrigger`. -/
def registerTrigger (m : Mgr α) (t : Trigger) : Mgr α :=
  { m with triggers := m.triggers ++ [t] }

/-- `addEventListener`: append the handler to the event's list (creating
the entry on first use, at the end of the map). -/
def addEventListener (m : Mgr α) (event : String) (h : α) : Mgr α :=
  match lookupKey m.handlers event with
  | none => { m with handlers := m.handlers ++ [(event, [h])] }
  | some hs => { m with handlers := setKey m.handlers event (hs ++ [h]) }

/-- `removeEventListener`: remove the first occurrence (indexOf/splice). -/
def removeFirst [DecidableEq α] (h : α) : List α → List α
  | [] => []
  | x :: rest => if x = h then rest else x :: removeFirst h rest

def removeEventListener [DecidableEq α] (m : Mgr α) (event : String) (h : α) : Mgr α :=
  match lookupKey m.handlers event with
  | none => m
  | some hs => { m with handlers := setKey m.handlers event (removeFirst h hs) }

/-- The handler list registered for an event (empty when absent). -/
def handlersFor (m : Mgr α) (event : String) : List α :=
  (lookupKey m.handlers event).getD []

/-- One dispatch record: the event name and the handlers invoked for it,
in registration order. -/
abbrev DispatchLog (α : Type) := List (String × List α)

/-- `dispatchEvent` as observed by the trigger machinery: the handlers
invoked (handler bodies are data here; claim C6 refines this with
try/catch execution). -/
def dispatchRecord (m : Mgr α) (event : String) : DispatchLog α :=
  [(event, handlersFor m event)]

/-- `dispatchEvent` with handler execution: each handler runs in order;
a thrown error is caught and logged (recorded as `some message`), and the
remaining handlers still run.  Without the catch the recursion would stop
at the first error. -/
def runHandlersCaught (run : α → Except String Unit) : List α → List (α × Option String)
  | [] => []
  | h :: rest =>
      match run h with
      | .ok _ => (h, none) :: runHandlersCaught run rest
      | .error e => (h, some e) :: runHandlersCaught run rest

def dispatchEventRun (m : Mgr α) (event : String) (run : α → Except String Unit) :
    List (α × Option String) :=
  runHandlersCaught run (handlersFor m event)

/-- `checkFrameTriggers`: no-op when the frame did not change; otherwise
FRAME_ENTER fires on current = frame ∧ previous ≠ frame, FRAME_EXIT on
previous = frame ∧ current ≠ frame, in registration order. -/
def checkFrameTriggers (m : Mgr α) : DispatchLog α :=
  if m.currentFrame = m.previousFrame then []
  else
    m.triggers.foldl (fun log t =>
      match t.kind with
      | .frameEnter f =>
          if m.currentFrame = f ∧ m.previousFrame ≠ f then log ++ dispatchRecord m t.action
          else log
      | .frameExit f =>
          if m.previousFrame = f ∧ m.currentFrame ≠ f then log ++ dispatchRecord m t.action
          else log
      | _ => log) []

/-- `checkRangeTriggers`: no-op when the frame did not change; otherwise
the ENTER pass (fire on not-in-range to in-range, silently drop from the
active set on leaving) followed by the EXIT pass (fire on leaving and drop
from the active set). -/
def checkRangeTriggers (m : Mgr α) : Mgr α × DispatchLog α :=
  if m.currentFrame = m.previousFrame then (m, [])
  else
    let inR := fun (s e : ℚ) => s ≤ m.currentFrame ∧ m.currentFrame ≤ e
    let wasR := fun (s e : ℚ) => s ≤ m.previousFrame ∧ m.previousFrame ≤ e
    let pass1 := m.triggers.foldl (fun (acc : List String × DispatchLog α) t =>
      match t.kind with
      | .rangeEnter s e =>
          if inR s e ∧ ¬ wasR s e then
            ((if t.id ∈ acc.1 then acc.1 else acc.1 ++ [t.id]),
             acc.2 ++ dispatchRecord m t.action)
          else if ¬ inR s e ∧ wasR s e then (acc.1.filter (· ≠ t.id), acc.2)
          else acc
      | _ => acc) (m.activeRangeTriggers, [])
    let pass2 := m.triggers.foldl (fun (acc : List String × DispatchLog α) t =>
      match t.kind with
      | .rangeExit s e =>
          if ¬ inR s e ∧ wasR s e then
            (acc.1.filter (· ≠ t.id), acc.2 ++ dispatchRecord m t.action)
          else acc
      | _ => acc) (pass1.1, pass1.2)
    ({ m with activeRangeTriggers := pass2.1 }, pass2.2)

/-- `updateFrame`: shift previous/current, then evaluate frame triggers
and range triggers. -/
def updateFrame (m : Mgr α) (f : ℚ) : Mgr α × DispatchLog α :=
  let m1 := { m with previousFrame := m.currentFrame, currentFrame := f }
  let log1 := checkFrameTriggers m1
  let r := checkRangeTriggers m1
  (r.1, log1 ++ r.2)

/-- `triggerPlaybackEvent`: dispatch the action of every playback trigger
of the given kind. -/
def triggerPlaybackEvent (m : Mgr α) (k : TriggerKind) : DispatchLog α :=
  m.triggers.foldl (fun log t =>
    if t.kind = k then log ++ dispatchRecord m t.action else log) []

/-- `isInRange`: inclusive membership of the current frame. -/
def isInRange (m : Mgr α) (s e : ℚ) : Bool :=
  decide (s ≤ m.currentFrame) && decide (m.currentFrame ≤ e)

/-- `getActiveRangeTriggers`. -/
def getActiveRangeTriggers (m : Mgr α) : List String := m.activeRangeTriggers

end Mgr

/-! ## Group/sequence orchestrator and facade (the enhanced AnimationEngine
in easing.ts)

Handler closures the engine registers with the event manager are modelled
as data (`EngineHandler`); a dispatch is recorded in the log together with
the handlers it would invoke.  performance.now and requestAnimationFrame
(the tick loop) are host-driven wall-clock machinery outside the
embedding; every frame change still reaches the trigger machinery only
through `Mgr.updateFrame`, which the theorems quantify over. -/

/-- Animation group types. -/
inductive AnimationGroupType where
  | parallel
  | sequence
  | stagger
deriving DecidableEq, Repr

/-- An animation group declaration. -/
structure AnimationGroup where
  id : String
  gtype : AnimationGroupType
  elementIds : List String
  properties : List String
  startFrame : ℚ
  duration : ℚ
  staggerDelay : Option ℚ
  easing : Option String

/-- A sequence step. -/
structure AnimationStep where
  groupId : String
  waitForComplete : Bool
  onComplete : Option String

/-- A sequence declaration. -/
structure AnimationSequence where
  id : String
  steps : List AnimationStep
  repeat_ : ℤ
  autoPlay : Bool

/-- Per-playback runtime state of an active sequence. -/
structure ActiveSeq where
  sequence : AnimationSequence
  currentStep : ℕ
  iterations : ℤ

/-- The closures the engine registers with its event manager: the default
actions installed by setupDefaultEventActions, externally added listeners,
the one-shot group-completion frame listener of playGroup, and the
animationComplete waiter of executeSequenceStep. -/
inductive EngineHandler where
  | defaultAction (name : String)
  | external (n : ℕ)
  | groupCompletion (groupId : String)
  | seqStepWaiter (sequenceId : String) (stepIndex : ℕ)
deriving DecidableEq, Repr

/-- The engine state. -/
structure AnimationEngine where
  timeline : TimelineM
  store : Store
  currentFrame : ℚ
  isPlaying : Bool
  pathMgr : PathMgr
  mgr : Mgr EngineHandler
  groups : List (String × AnimationGroup)
  sequences : List (String × AnimationSequence)
  activeSequences : List (String × ActiveSeq)

namespace AnimationEngine

/-- The engine log type: dispatch records of the event manager. -/
abbrev Log := Mgr.DispatchLog EngineHandler

/-- setupDefaultEventActions: the default listeners installed by the
engine on construction, in registration order. -/
def defaultListenerNames : List String :=
  ["gotoFrame", "gotoAndPlay", "gotoAndStop", "play", "pause", "stop",
   "togglePlay", "playSequence", "stopSequence"]

/-- A fresh engine over a timeline and element store (the constructor plus
setupDefaultEventActions). -/
def mkEngine (tl : TimelineM) (store : Store) : AnimationEngine :=
  { timeline := tl
    store := store
    currentFrame := 0
    isPlaying := false
    pathMgr := ⟨[], []⟩
    mgr := defaultListenerNames.foldl
      (fun m name => m.addEventListener name (.defaultAction name)) (Mgr.empty EngineHandler)
    groups := []
    sequences := []
    activeSequences := [] }

/-- `play`: set isPlaying and fire PLAY playback triggers (the wall-clock
tick loop is host machinery outside the embedding). -/
def play (e : AnimationEngine) : AnimationEngine × Log :=
  if e.isPlaying then (e, [])
  else ({ e with isPlaying := true }, e.mgr.triggerPlaybackEvent .play)

/-- `pause`: clear isPlaying, cancel the pending tick, fire PAUSE. -/
def pause (e : AnimationEngine) : AnimationEngine × Log :=
  ({ e with isPlaying := false }, e.mgr.triggerPlaybackEvent .pause)

/-- `seekToFrame`: clamp to [0, duration-1] and feed the event manager. -/
def seekToFrame (e : AnimationEngine) (frame : ℚ) : AnimationEngine × Log :=
  let cf := max 0 (min frame (qsub e.timeline.duration 1))
  let r := e.mgr.updateFrame cf
  ({ e with currentFrame := cf, mgr := r.1 }, r.2)

/-- `stop`: pause, reset the frame, drop active sequences, feed the event
manager the new frame, fire STOP. -/
def stop (e : AnimationEngine) : AnimationEngine × Log :=
  let r1 := pause e
  let e2 := { r1.1 with currentFrame := 0, activeSequences := [] }
  let r2 := e2.mgr.updateFrame 0
  let e3 := { e2 with mgr := r2.1 }
  (e3, r1.2 ++ r2.2 ++ e3.mgr.triggerPlaybackEvent .stop)

/-- `findElementById`: first element with the id across layers and
frames. -/
def findElementById (e : AnimationEngine) (id : String) : Option ℕ :=
  e.timeline.layers.foldl (fun acc layer =>
    match acc with
    | some a => some a
    | none => layer.frames.foldl (fun acc2 fr =>
        match acc2 with
        | some a => some a
        | none => fr.elemAddrs.find? (fun a => (e.store.getD a dfltElem).id = id)) none) none

/-- JS decimal rendering of the frame number used in the `frame_N` event
key (integral frames render as integers; the engine only produces
integral completion frames in the embedded claims). -/
def frameKey (f : ℚ) : String :=
  if f.den = 1 then toString f.num else toString f.num ++ "/" ++ toString f.den

/-- `addFrameListener`: register a listener under the `frame_N` event. -/
def addFrameListener (e : AnimationEngine) (frame : ℚ) (h : EngineHandler) : AnimationEngine :=
  { e with mgr := e.mgr.addEventListener ("frame_" ++ frameKey frame) h }

/-- `applyGroupAnimationToElement`: for each group property, find or
append the animation entry and overwrite its keyframes with the
two-keyframe synthesis: the current value at startFrame+delay and, for
numbers, its double at startFrame+delay+duration. -/
def applyGroupAnimationToElement (obj : ElementObj) (group : AnimationGroup)
    (delayFrames : ℚ) : ElementObj :=
  let anims0 := obj.animations.getD []
  let anims := group.properties.foldl (fun (anims : List PropertyAnimation) property =>
    let startFrame := qadd group.startFrame delayFrames
    let endFrame := qadd startFrame group.duration
    let currentValue :=
      match getNestedProperty obj.properties property with
      | none => PValue.pnum (num 0)
      | some v => if v.falsy then PValue.pnum (num 0) else v
    let kfs : List Keyframe :=
      [{ frame := startFrame, value := currentValue,
         easing := (group.easing.map (fun s => orDefault s "ease-in-out")).getD "ease-in-out" },
       { frame := endFrame,
         value := (match currentValue with
                   | .pnum n => .pnum (jmul n (num 2))
                   | v => v),
         easing := (group.easing.map (fun s => orDefault s "ease-in-out")).getD "ease-in-out" }]
    match anims.findIdx? (fun a => a.property = property) with
    | some i => anims.set i { property := property, keyframes := kfs }
    | none => anims ++ [{ property := property, keyframes := kfs }]) anims0
  { obj with animations := some anims }

/-- Apply the group animation to the canonical element at an address
(mutation of the timeline element through its reference). -/
def applyGroupToAddr (e : AnimationEngine) (addr : ℕ) (group : AnimationGroup)
    (delayFrames : ℚ) : AnimationEngine :=
  let obj2 := applyGroupAnimationToElement (e.store.getD addr dfltElem) group delayFrames
  { e with store := e.store.set addr obj2 }

/-- `playGroup`: resolve the group's elements, seed their animations with
the type-dependent delays, and register the one-shot completion listener
keyed to `frame_(startFrame+duration)`. -/
def playGroup (e : AnimationEngine) (group : AnimationGroup) : AnimationEngine :=
  let addrs := (group.elementIds.map (findElementById e)).reduceOption
  let e1 :=
    match group.gtype with
    | .parallel => addrs.foldl (fun acc a => applyGroupToAddr acc a group 0) e
    | .sequence =>
        addrs.enum.foldl (fun acc p =>
          applyGroupToAddr acc p.2 group
            (qmul (qdivQ group.duration (qofNat addrs.length)) (qofNat p.1))) e
    | .stagger =>
        let staggerDelay := group.staggerDelay.getD 5
        addrs.enum.foldl (fun acc p =>
          applyGroupToAddr acc p.2 group (qmul staggerDelay (qofNat p.1))) e
  addFrameListener e1 (qadd group.startFrame group.duration) (.groupCompletion group.id)

/-- `registerGroup`. -/
def registerGroup (e : AnimationEngine) (group : AnimationGroup) : AnimationEngine :=
  { e with groups := setKey e.groups group.id group }

/-- `stopSequence`. -/
def stopSequence (e : AnimationEngine) (sequenceId : String) : AnimationEngine :=
  { e with activeSequences := e.activeSequences.filter (fun p => p.1 ≠ sequenceId) }

/-- `executeSequenceStep` (fuel bounds the recursion; the JS original can
loop forever on a zero-step sequence with repeat −1). -/
def executeSequenceStep (fuel : ℕ) (e : AnimationEngine) (sequenceId : String) :
    AnimationEngine × Log :=
  match fuel with
  | 0 => (e, [])
  | fuel + 1 =>
    match lookupKey e.activeSequences sequenceId with
    | none => (e, [])
    | some act =>
      if act.currentStep ≥ act.sequence.steps.length then
        let act1 := { act with iterations := act.iterations + 1 }
        if act1.sequence.repeat_ = -1 ∨ act1.iterations < act1.sequence.repeat_ then
          let acts := setKey e.activeSequences sequenceId ({ act1 with currentStep := 0 })
          executeSequenceStep fuel ({ e with activeSequences := acts }) sequenceId
        else
          let acts := e.activeSequences.filter (fun p => p.1 ≠ sequenceId)
          ({ e with activeSequences := acts }, e.mgr.dispatchRecord "sequenceComplete")
      else
        match act.sequence.steps.get? act.currentStep with
        | none => (e, [])
        | some step =>
          match lookupKey e.groups step.groupId with
          | none =>
              let acts := setKey e.activeSequences sequenceId
                ({ act with currentStep := act.currentStep + 1 })
              executeSequenceStep fuel ({ e with activeSequences := acts }) sequenceId
          | some group =>
            let e1 := playGroup e group
            if ¬ step.waitForComplete then
              let acts := setKey e1.activeSequences sequenceId
                ({ act with currentStep := act.currentStep + 1 })
              executeSequenceStep fuel ({ e1 with activeSequences := acts }) sequenceId
            else
              let m2 := e1.mgr.addEventListener "animationComplete"
                (EngineHandler.seqStepWaiter sequenceId act.currentStep)
              ({ e1 with mgr := m2 }, [])

/-- `playSequence`: unknown ids return immediately; otherwise create fresh
runtime state, execute step 0 and ensure the clock is playing. -/
def playSequence (fuel : ℕ) (e : AnimationEngine) (sequenceId : String) :
    AnimationEngine × Log :=
  match lookupKey e.sequences sequenceId with
  | none => (e, [])
  | some sequence =>
      let acts := setKey e.activeSequences sequenceId ⟨sequence, 0, 0⟩
      let r1 := executeSequenceStep fuel ({ e with activeSequences := acts }) sequenceId
      let r2 := play r1.1
      (r2.1, r1.2 ++ r2.2)

/-- `registerSequence` (auto-plays when requested). -/
def registerSequence (fuel : ℕ) (e : AnimationEngine) (sequence : AnimationSequence) :
    AnimationEngine × Log :=
  let e1 := { e with sequences := setKey e.sequences sequence.id sequence }
  if sequence.autoPlay then playSequence fuel e1 sequence.id else (e1, [])

/-- `addEventListener` on the engine. -/
def addEventListenerE (e : AnimationEngine) (event : String) (h : EngineHandler) :
    AnimationEngine :=
  { e with mgr := e.mgr.addEventListener event h }

end AnimationEngine

/-! ## SVG path-string parsing (parseSVGPath in renderer.ts/pathing.ts)

The tokenizer is the global regex `([A-Za-z])([^A-Za-z]*)`: characters
before the first letter are skipped; each token is a letter followed by
the maximal run of non-letters.  Parameters come from
`rest.trim().split(/[\s,]+/).map(parseFloat)`; a token that does not
parse as a number is NaN, and a missing parameter (undefined in JS) is
conflated with NaN in the command coordinates. -/

/-- The `([A-Za-z])([^A-Za-z]*)` global tokenizer, as a structural state
machine: the optional state is the letter of the token being collected
and its (reversed) body of non-letters so far. -/
def svgTokenizeGo : List Char → Option (Char × List Char) → List (Char × List Char)
  | [], none => []
  | [], some t => [(t.1, t.2.reverse)]
  | c :: cs, none =>
      if c.isAlpha then svgTokenizeGo cs (some (c, [])) else svgTokenizeGo cs none
  | c :: cs, some t =>
      if c.isAlpha then (t.1, t.2.reverse) :: svgTokenizeGo cs (some (c, []))
      else svgTokenizeGo cs (some (t.1, c :: t.2))

def svgTokenize (l : List Char) : List (Char × List Char) := svgTokenizeGo l none

/-- Is the character a `[\s,]` separator? -/
def isSepChar (c : Char) : Bool := c.isWhitespace || c = ','

/-- JS String.trim on a character list. -/
def trimChars (l : List Char) : List Char :=
  (((l.dropWhile Char.isWhitespace).reverse).dropWhile Char.isWhitespace).reverse

/-- `s.split(/[\s,]+/)` on a character list: fields between maximal
separator runs; the empty string yields one empty field, and leading or
trailing separator runs yield empty boundary fields, exactly as the JS
regex split does.  The Bool is true while skipping the remainder of a
separator run. -/
def splitSepsGo : List Char → List Char → Bool → List (List Char)
  | [], acc, false => [acc.reverse]
  | [], _, true => [[]]
  | c :: cs, acc, false =>
      if isSepChar c then acc.reverse :: splitSepsGo cs [] true
      else splitSepsGo cs (c :: acc) false
  | c :: cs, _, true =>
      if isSepChar c then splitSepsGo cs [] true else splitSepsGo cs [c] false

/-- Decimal digit value. -/
def decDigitVal (c : Char) : Option ℕ :=
  if '0' ≤ c ∧ c ≤ '9' then some (c.toNat - '0'.toNat) else none

/-- Leading run of decimal digits with its value and count. -/
def takeDigits : List Char → ℕ → ℕ → ℕ × ℕ × List Char
  | [], acc, n => (acc, n, [])
  | c :: cs, acc, n =>
      match decDigitVal c with
      | some d => takeDigits cs (acc * 10 + d) (n + 1)
      | none => (acc, n, c :: cs)

/-- JS parseFloat on a token: optional sign, integer digits, optional
fraction; requires at least one digit, parses a leading numeric run and
ignores trailing junk; no digits at all gives NaN.  Exponent notation is
not modelled (the engine is only handed plain decimal coordinates). -/
def parseFloatJS (s : String) : JSNum :=
  let cs := s.toList
  let (sign, cs1) : ℚ × List Char :=
    match cs with
    | '-' :: rest => (mkRat (-1) 1, rest)
    | '+' :: rest => (1, rest)
    | _ => (1, cs)
  let (ip, ic, cs2) := takeDigits cs1 0 0
  match cs2 with
  | '.' :: cs3 =>
      let (fp, fc, _) := takeDigits cs3 0 0
      if ic + fc = 0 then .nan
      else .num (qmul sign (qadd (qofNat ip) (mkRat fp ((10 : ℕ) ^ fc))))
  | _ => if ic = 0 then .nan else .num (qmul sign (qofNat ip))

/-- Parameter i of a token (`params[i]`; a missing index is undefined in
JS and conflated with NaN here). -/
def getParam (ps : List JSNum) (i : ℕ) : JSNum := ps.getD i .nan

/-- The switch body of parseSVGPath for one token: recognized absolute
commands produce one command, anything else produces none. -/
def commandOfToken (c : Char) (ps : List JSNum) : Option PathCmd :=
  if c = 'M' then some (.moveTo (getParam ps 0) (getParam ps 1))
  else if c = 'L' then some (.lineTo (getParam ps 0) (getParam ps 1))
  else if c = 'C' then
    some (.curveTo (getParam ps 0) (getParam ps 1) (getParam ps 2) (getParam ps 3)
      (getParam ps 4) (getParam ps 5))
  else if c = 'Q' then
    some (.quadTo (getParam ps 0) (getParam ps 1) (getParam ps 2) (getParam ps 3))
  else if c = 'A' then
    some (.arcTo (getParam ps 0) (getParam ps 1) (getParam ps 2)
      (getParam ps 3 ≠ .num 0) (getParam ps 4 ≠ .num 0) (getParam ps 5) (getParam ps 6))
  else if c = 'Z' then some .close
  else none

/-- Parameters of a token: trim, split on separator runs, parseFloat. -/
def paramsOfToken (body : List Char) : List JSNum :=
  (splitSepsGo (trimChars body) [] false).map (fun f => parseFloatJS (String.mk f))

/-- `parseSVGPath`: tokenize, build commands, drop unrecognized tokens. -/
def parseSVGPath (pathString : String) : List PathCmd :=
  (svgTokenize pathString.toList).filterMap (fun t => commandOfToken t.1 (paramsOfToken t.2))

/-! ## Concrete scenarios

The timeline, elements, group, and sequence of the test suite
(test for groups/sequences): a circle (radius 50) and a rect (width 100)
on one visible layer spanning frames [0, 300). -/

/-- The circle element of the test timeline. -/
def circleEl : ElementObj :=
  ⟨"circle", "circle",
   [("x", .pnum (num 100)), ("y", .pnum (num 100)), ("radius", .pnum (num 50)),
    ("fill", .pstr "#ff0000")], none⟩

/-- The rect element of the test timeline. -/
def rectEl : ElementObj :=
  ⟨"rect", "rectangle",
   [("x", .pnum (num 200)), ("y", .pnum (num 100)), ("width", .pnum (num 100)),
    ("height", .pnum (num 80)), ("fill", .pstr "#0000ff")], none⟩

/-- The test timeline: one visible layer, one frame spanning [0, 300),
elements at store addresses 0 (circle) and 1 (rect). -/
def tlC2 : TimelineM := ⟨60, 300, [⟨"testLayer", "normal", true, false, [⟨0, 300, [0, 1]⟩]⟩]⟩

/-- The PARALLEL group of claim C2: elements circle and rect, properties
radius and width, startFrame 10, duration 30. -/
def gC2 : AnimationGroup :=
  ⟨"testGroup", .parallel, ["circle", "rect"], ["radius", "width"], 10, 30, none,
   some "ease-in-out"⟩

/-- The engine of claim C2 after the group has been played at frame 10. -/
def eC2 : AnimationEngine :=
  AnimationEngine.playGroup
    (AnimationEngine.registerGroup (AnimationEngine.mkEngine tlC2 [circleEl, rectEl]) gC2) gC2

/-- The resolved scene of claim C2 at a frame. -/
def c2Resolved (ops : RealOps) (f : ℚ) : Store × List ℕ :=
  getCurrentElementsStore ops tlC2 eC2.pathMgr f eC2.store

/-- The circle's resolved radius at a frame (first returned element). -/
def c2Radius (ops : RealOps) (f : ℚ) : Option PValue :=
  getNestedProperty
    (((c2Resolved ops f).1.getD ((c2Resolved ops f).2.getD 0 0) dfltElem).properties) "radius"

/-- The rect's resolved width at a frame (second returned element). -/
def c2Width (ops : RealOps) (f : ℚ) : Option PValue :=
  getNestedProperty
    (((c2Resolved ops f).1.getD ((c2Resolved ops f).2.getD 1 0) dfltElem).properties) "width"

/-- The degenerate animation of claim C3: two keyframes sharing absolute
frame 10. -/
def c3anim : PropertyAnimation :=
  ⟨"x", [⟨10, .pnum (num 1), "linear"⟩, ⟨10, .pnum (num 2), "linear"⟩]⟩

/-- The element of claim C3 (base x = 5). -/
def c3elem : ElementObj := ⟨"e", "rectangle", [("x", .pnum (num 5))], some [c3anim]⟩

/-- The group of claim C1: circle radius over frames [10, 40]. -/
def gC1 : AnimationGroup :=
  ⟨"g1", .parallel, ["circle"], ["radius"], 10, 30, none, none⟩

/-- The one-step wait-for-complete sequence of claim C1. -/
def seqC1 : AnimationSequence :=
  ⟨"seq1", [⟨"g1", true, some "stepDone"⟩], 1, false⟩

/-- The engine of claim C1 right after playSequence: the completion
listener is registered under frame_40 and the step waits for
animationComplete. -/
def eC1 : AnimationEngine :=
  (AnimationEngine.playSequence 100
    ((AnimationEngine.registerSequence 100
      (AnimationEngine.registerGroup (AnimationEngine.mkEngine tlC2 [circleEl, rectEl]) gC1)
      seqC1).1)
    "seq1").1

/-- The RANGE_ENTER trigger of claim C5: inclusive range [30, 50]. -/
def rtC5 : Trigger := ⟨"r", "enter", .rangeEnter 30 50⟩

/-- The manager of claim C5: the range trigger plus one listener
(handler 7) on its action. -/
def mC5 : Mgr ℕ := ((Mgr.empty ℕ).registerTrigger rtC5).addEventListener "enter" 7

/-- The circle element after playGroup of gC2: the synthesized
two-keyframe animations for radius (50 to 100) and width (absent, so 0
to 0). -/
def circleAfterC2 : ElementObj :=
  ⟨"circle", "circle",
   [("x", .pnum (num 100)), ("y", .pnum (num 100)), ("radius", .pnum (num 50)),
    ("fill", .pstr "#ff0000")],
   some [⟨"radius", [⟨10, .pnum (num 50), "ease-in-out"⟩, ⟨40, .pnum (num 100), "ease-in-out"⟩]⟩,
         ⟨"width", [⟨10, .pnum (num 0), "ease-in-out"⟩, ⟨40, .pnum (num 0), "ease-in-out"⟩]⟩]⟩

/-- The rect element after playGroup of gC2. -/
def rectAfterC2 : ElementObj :=
  ⟨"rect", "rectangle",
   [("x", .pnum (num 200)), ("y", .pnum (num 100)), ("width", .pnum (num 100)),
    ("height", .pnum (num 80)), ("fill", .pstr "#0000ff")],
   some [⟨"radius", [⟨10, .pnum (num 0), "ease-in-out"⟩, ⟨40, .pnum (num 0), "ease-in-out"⟩]⟩,
         ⟨"width", [⟨10, .pnum (num 100), "ease-in-out"⟩, ⟨40, .pnum (num 200), "ease-in-out"⟩]⟩]⟩

/-! ## Helper lemmas -/

theorem qofNat_eq (n : ℕ) : qofNat n = (n : ℚ) := by
  unfold qofNat
  rw [Rat.mkRat_eq_div]
  push_cast
  exact div_one _

theorem qadd_eq (a b : ℚ) : qadd a b = a + b := by
  unfold qadd
  rw [Rat.mkRat_eq_div]
  have ha : (a.den : ℚ) ≠ 0 := Nat.cast_ne_zero.mpr a.den_nz
  have hb : (b.den : ℚ) ≠ 0 := Nat.cast_ne_zero.mpr b.den_nz
  conv_rhs => rw [← Rat.num_div_den a, ← Rat.num_div_den b]
  rw [div_add_div _ _ ha hb]
  push_cast
  ring_nf

theorem qneg_eq (a : ℚ) : qneg a = -a := by
  unfold qneg
  rw [Rat.mkRat_eq_div]
  push_cast
  rw [neg_div, Rat.num_div_den]

theorem qsub_eq (a b : ℚ) : qsub a b = a - b := by
  unfold qsub
  rw [qadd_eq, qneg_eq, sub_eq_add_neg]

theorem qmul_eq (a b : ℚ) : qmul a b = a * b := by
  unfold qmul
  rw [Rat.mkRat_eq_div]
  conv_rhs => rw [← Rat.num_div_den a, ← Rat.num_div_den b]
  rw [div_mul_div_comm]
  push_cast
  ring_nf

theorem qdivQ_eq (a b : ℚ) : qdivQ a b = a / b := by
  rcases eq_or_ne b 0 with rfl | hb
  · unfold qdivQ
    norm_num
  · have hbnum : b.num ≠ 0 := Rat.num_ne_zero.mpr hb
    have hda : (a.den : ℚ) ≠ 0 := Nat.cast_ne_zero.mpr a.den_nz
    have hdb : (b.den : ℚ) ≠ 0 := Nat.cast_ne_zero.mpr b.den_nz
    have ha : (a.den : ℚ) * a = a.num := by
      have h0 := Rat.num_div_den a
      calc (a.den : ℚ) * a = (a.den : ℚ) * ((a.num : ℚ) / (a.den : ℚ)) := by rw [h0]
        _ = a.num := by field_simp
    have hb2 : (b.den : ℚ) * b = b.num := by
      have h0 := Rat.num_div_den b
      calc (b.den : ℚ) * b = (b.den : ℚ) * ((b.num : ℚ) / (b.den : ℚ)) := by rw [h0]
        _ = b.num := by field_simp
    have hdenpos : ((a.den * b.num.natAbs : ℕ) : ℚ) ≠ 0 := by
      simp [a.den_nz, Int.natAbs_eq_zero, hbnum]
    unfold qdivQ
    by_cases hneg : b.num < 0
    · rw [if_pos hneg, Rat.mkRat_eq_div, div_eq_div_iff hdenpos hb]
      have hnab : ((b.num.natAbs : ℕ) : ℚ) = -(b.num : ℚ) := by
        rw [Int.cast_natAbs, abs_of_neg hneg]
        push_cast
        ring
      push_cast [hnab]
      rw [← ha, ← hb2]
      ring
    · rw [if_neg hneg, Rat.mkRat_eq_div, div_eq_div_iff hdenpos hb]
      have hnab : ((b.num.natAbs : ℕ) : ℚ) = (b.num : ℚ) := by
        rw [Int.cast_natAbs, abs_of_nonneg (le_of_not_lt hneg)]
      push_cast [hnab]
      rw [← ha, ← hb2]
      ring

theorem lookupKey_setKey_self {β : Type} (l : List (String × β)) (k : String) (v : β) :
    lookupKey (setKey l k v) k = some v := by
  induction l with
  | nil => simp [setKey, lookupKey]
  | cons p rest ih =>
      by_cases h : p.1 = k
      · simp [setKey, lookupKey, h]
      · simp [setKey, lookupKey, h, ih]

theorem lookupKey_append_of_none {β : Type} (l l2 : List (String × β)) (k : String)
    (h : lookupKey l k = none) : lookupKey (l ++ l2) k = lookupKey l2 k := by
  induction l with
  | nil => simp
  | cons p rest ih =>
      by_cases hp : p.1 = k
      · simp [lookupKey, hp] at h
      · simp [lookupKey, hp] at h ⊢
        exact ih h

theorem lookupKey_mem {β : Type} (l : List (String × β)) (k : String) (v : β)
    (h : lookupKey l k = some v) : (k, v) ∈ l := by
  induction l with
  | nil => simp [lookupKey] at h
  | cons p rest ih =>
      rcases p with ⟨pk, pv⟩
      by_cases hp : pk = k
      · simp [lookupKey, hp] at h
        subst hp
        subst h
        exact List.mem_cons_self _ _
      · simp [lookupKey, hp] at h
        exact List.mem_cons_of_mem _ (ih h)

theorem setKey_mem {β : Type} (l : List (String × β)) (k : String) (v : β) (p : String × β)
    (h : p ∈ setKey l k v) : p ∈ l ∨ p = (k, v) := by
  induction l with
  | nil => simp [setKey] at h; simp [h]
  | cons q rest ih =>
      by_cases hq : q.1 = k
      · simp [setKey, hq] at h
        rcases h with h | h
        · right; rw [h, ← hq]
        · left; exact List.mem_cons_of_mem _ h
      · simp [setKey, hq] at h
        rcases h with h | h
        · left; simp [h]
        · rcases ih h with h2 | h2
          · left; exact List.mem_cons_of_mem _ h2
          · right; exact h2

/-- Members of the easing registry map NaN to NaN (each entry is checked
by evaluation). -/
theorem easingMap_nan : ∀ p ∈ Easing.easingMap, p.2 JSNum.nan = JSNum.nan := by decide

theorem lookupKey_forall {β : Type} (P : β → Prop) (l : List (String × β)) (k : String)
    (v : β) (hall : ∀ p ∈ l, P p.2) (h : lookupKey l k = some v) : P v := by
  have hm := lookupKey_mem l k v h
  exact hall (k, v) hm

/-- Every easing the registry can return maps NaN to NaN (unknown names
fall back to linear). -/
theorem getEasingFunction_nan (name : String) :
    Easing.getEasingFunction name JSNum.nan = JSNum.nan := by
  unfold Easing.getEasingFunction
  cases h : lookupKey Easing.easingMap name with
  | none => rfl
  | some f =>
      exact lookupKey_forall (fun g => g JSNum.nan = JSNum.nan) _ name f easingMap_nan h

theorem jmul_nan (x : JSNum) : jmul x JSNum.nan = JSNum.nan := by cases x <;> rfl

theorem jadd_nan (x : JSNum) : jadd x JSNum.nan = JSNum.nan := by cases x <;> rfl

/-! ## Claim C9 -/

/-- C9: for every t in [0,1], easeInQuad(t) = t*t, easeOutQuad(t) =
t*(2-t), and easeInBounce(t) = 1 - easeOutBounce(1-t) (the bounce pair
are exact complements, as the source defines easeInBounce by that very
formula). -/
theorem flare_C9_easing_identities (t : ℚ) (h0 : 0 ≤ t) (h1 : t ≤ 1) :
    Easing.easeInQuad (num t) = num (t * t) ∧
    Easing.easeOutQuad (num t) = num (t * (2 - t)) ∧
    Easing.easeInBounce (num t) = jsub (num 1) (Easing.easeOutBounce (num (1 - t))) := by
  refine ⟨?_, ?_, ?_⟩
  · show num (qmul t t) = num (t * t)
    rw [qmul_eq]
  · show num (qmul t (qadd 2 (qneg t))) = num (t * (2 - t))
    rw [qmul_eq, qadd_eq, qneg_eq]
    congr 1
    ring
  · show jsub (num 1) (Easing.easeOutBounce (jsub (num 1) (num t)))
        = jsub (num 1) (Easing.easeOutBounce (num (1 - t)))
    have h : jsub (num 1) (num t) = num (qadd 1 (qneg t)) := rfl
    rw [h, show qadd 1 (qneg t) = 1 - t by rw [qadd_eq, qneg_eq]; ring]

/-- Witness for C9 at t = 1/2. -/
theorem flare_C9_witness :
    Easing.easeInQuad (num (1/2)) = num ((1/2) * (1/2)) ∧
    Easing.easeOutQuad (num (1/2)) = num ((1/2) * (2 - 1/2)) ∧
    Easing.easeInBounce (num (1/2)) = jsub (num 1) (Easing.easeOutBounce (num (1 - 1/2))) :=
  flare_C9_easing_identities (1/2) (by norm_num) (by norm_num)

/-! ## Claim C8 -/

/-- C8: parseSVGPath on 'M100,100 L200,200 Z' yields exactly the three
commands MOVE_TO (100,100), LINE_TO (200,200), CLOSE; the empty string
and 'X100,100' yield the empty list; and any token whose command letter
is not one of M, L, C, Q, A, Z produces no command (the embedding is a
total function, so no input can make it throw). -/
theorem flare_C8_parseSVGPath :
    parseSVGPath "M100,100 L200,200 Z" =
      [.moveTo (num 100) (num 100), .lineTo (num 200) (num 200), .close] ∧
    parseSVGPath "" = [] ∧
    parseSVGPath "X100,100" = [] ∧
    (∀ (c : Char) (ps : List JSNum),
      c ∉ (['M', 'L', 'C', 'Q', 'A', 'Z'] : List Char) → commandOfToken c ps = none) := by
  refine ⟨by decide, by decide, by decide, ?_⟩
  intro c ps h
  simp only [List.mem_cons, List.not_mem_nil, or_false, not_or] at h
  obtain ⟨hM, hL, hC, hQ, hA, hZ⟩ := h
  simp [commandOfToken, hM, hL, hC, hQ, hA, hZ]

/-- Witness for C8: the unrecognized letter X produces no command. -/
theorem flare_C8_witness : commandOfToken 'X' [] = none :=
  flare_C8_parseSVGPath.2.2.2 'X' [] (by decide)

/-! ## Claim C10 -/

/-- C10: playSequence with an unregistered id is a complete no-op: the
engine state (active sequences, playback state, current frame, event
manager) is unchanged and no event is dispatched. -/
theorem flare_C10_playSequence_unknown_noop (fuel : ℕ) (e : AnimationEngine) (sid : String)
    (h : lookupKey e.sequences sid = none) :
    AnimationEngine.playSequence fuel e sid = (e, []) := by
  unfold AnimationEngine.playSequence
  rw [h]

/-- Witness for C10 on a fresh engine with no sequences. -/
theorem flare_C10_witness :
    AnimationEngine.playSequence 50 (AnimationEngine.mkEngine tlC2 [circleEl, rectEl]) "nope"
      = (AnimationEngine.mkEngine tlC2 [circleEl, rectEl], []) :=
  flare_C10_playSequence_unknown_noop 50 _ "nope" rfl

/-! ## Claim C6 -/

/-- The outcome of running one handler under the dispatch try/catch. -/
theorem runHandlersCaught_spec {α : Type} (run : α → Except String Unit) (l : List α) :
    Mgr.runHandlersCaught run l
      = l.map (fun x => (x, match run x with | .ok _ => none | .error e => some e)) := by
  induction l with
  | nil => rfl
  | cons h rest ih =>
      cases hr : run h <;> simp [Mgr.runHandlersCaught, hr, ih]

/-- C6: dispatchEvent invokes every handler registered for the event, in
registration order (addEventListener appends); a thrown error is caught
and logged (`some message` in the outcome) and does not prevent any
subsequent handler of the same event from running. -/
theorem flare_C6_dispatch_isolation (α : Type) (m : Mgr α) (event : String) (h : α)
    (run : α → Except String Unit) :
    ((m.addEventListener event h).handlersFor event = m.handlersFor event ++ [h]) ∧
    (m.dispatchEventRun event run
      = (m.handlersFor event).map
          (fun x => (x, match run x with | .ok _ => none | .error e => some e))) ∧
    ((m.dispatchEventRun event run).map Prod.fst = m.handlersFor event) := by
  refine ⟨?_, ?_, ?_⟩
  · unfold Mgr.addEventListener Mgr.handlersFor
    cases hl : lookupKey m.handlers event with
    | none =>
        simp only [hl]
        rw [lookupKey_append_of_none _ _ _ hl]
        simp [lookupKey]
    | some hs =>
        simp only [hl]
        rw [lookupKey_setKey_self]
        simp
  · unfold Mgr.dispatchEventRun
    exact runHandlersCaught_spec run _
  · unfold Mgr.dispatchEventRun
    rw [runHandlersCaught_spec, List.map_map]
    exact List.map_id _

/-! ## Claim C5 -/

/-- The manager's current frame after updateFrame is the argument, and
the triggers and handlers registries are untouched. -/
theorem checkRangeTriggers_proj {α : Type} (m : Mgr α) :
    (Mgr.checkRangeTriggers m).1.currentFrame = m.currentFrame ∧
    (Mgr.checkRangeTriggers m).1.triggers = m.triggers ∧
    (Mgr.checkRangeTriggers m).1.handlers = m.handlers := by
  unfold Mgr.checkRangeTriggers
  by_cases h : m.currentFrame = m.previousFrame <;> simp [h]

theorem mgr_updateFrame_proj {α : Type} (m : Mgr α) (f : ℚ) :
    (m.updateFrame f).1.currentFrame = f ∧ (m.updateFrame f).1.triggers = m.triggers ∧
      (m.updateFrame f).1.handlers = m.handlers := by
  unfold Mgr.updateFrame
  dsimp only
  exact ⟨(checkRangeTriggers_proj _).1, (checkRangeTriggers_proj _).2.1,
    (checkRangeTriggers_proj _).2.2⟩

/-- updateFrame with the frame already current fires nothing and leaves
the active-range set unchanged. -/
theorem mgr_updateFrame_same {α : Type} (m : Mgr α) (f : ℚ) (h : m.currentFrame = f) :
    (m.updateFrame f).2 = [] ∧
      (m.updateFrame f).1.activeRangeTriggers = m.activeRangeTriggers := by
  unfold Mgr.updateFrame Mgr.checkFrameTriggers Mgr.checkRangeTriggers
  dsimp only
  simp [h]

/-- C5: event-trigger evaluation fires exactly once per traversal.  First,
for every manager and frame, a second consecutive updateFrame with the
same value fires no frame or range triggers and leaves the active-range
set unchanged.  Second, on the concrete manager with a RANGE_ENTER
trigger [30,50]: the move 29 to 30 fires its action exactly once and adds
its id to the active set, and the in-range move 30 to 40 fires nothing
and keeps the active set. -/
theorem flare_C5_trigger_exactly_once :
    (∀ (α : Type) (m : Mgr α) (f : ℚ),
      (((m.updateFrame f).1).updateFrame f).2 = [] ∧
      (((m.updateFrame f).1).updateFrame f).1.activeRangeTriggers
        = ((m.updateFrame f).1).activeRangeTriggers) ∧
    ((mC5.updateFrame 29).2 = [] ∧
     (((mC5.updateFrame 29).1).updateFrame 30).2 = [("enter", [7])] ∧
     (((mC5.updateFrame 29).1).updateFrame 30).1.activeRangeTriggers = ["r"] ∧
     ((((mC5.updateFrame 29).1).updateFrame 30).1.updateFrame 40).2 = [] ∧
     ((((mC5.updateFrame 29).1).updateFrame 30).1.updateFrame 40).1.activeRangeTriggers
       = ["r"]) := by
  constructor
  · intro α m f
    exact mgr_updateFrame_same _ f (mgr_updateFrame_proj m f).1
  · exact ⟨by decide, by decide, by decide, by decide, by decide⟩

/-! ## Claim C7 -/

/-- C7: seekToFrame clamps its argument to the inclusive interval
[0, duration-1] (negative arguments give 0, arguments at or beyond the
duration give duration-1, in-range arguments pass through), is valid in
any playback state (the engine is arbitrary), and does not change the
playing/paused state of the clock. -/
theorem flare_C7_seekToFrame_clamps (e : AnimationEngine) (f : ℚ)
    (hd : 1 ≤ e.timeline.duration) :
    0 ≤ ((AnimationEngine.seekToFrame e f).1).currentFrame ∧
    ((AnimationEngine.seekToFrame e f).1).currentFrame ≤ e.timeline.duration - 1 ∧
    (f < 0 → ((AnimationEngine.seekToFrame e f).1).currentFrame = 0) ∧
    (e.timeline.duration ≤ f →
      ((AnimationEngine.seekToFrame e f).1).currentFrame = e.timeline.duration - 1) ∧
    (0 ≤ f → f ≤ e.timeline.duration - 1 →
      ((AnimationEngine.seekToFrame e f).1).currentFrame = f) ∧
    ((AnimationEngine.seekToFrame e f).1).isPlaying = e.isPlaying := by
  have hcf : ((AnimationEngine.seekToFrame e f).1).currentFrame
      = max 0 (min f (e.timeline.duration - 1)) := by
    show max 0 (min f (qsub e.timeline.duration 1)) = _
    rw [qsub_eq]
  have hd1 : (0 : ℚ) ≤ e.timeline.duration - 1 := by linarith
  refine ⟨?_, ?_, ?_, ?_, ?_, rfl⟩
  · rw [hcf]; exact le_max_left _ _
  · rw [hcf]
    exact max_le hd1 (min_le_right _ _)
  · intro hf
    rw [hcf, min_eq_left (by linarith), max_eq_left (le_of_lt hf)]
  · intro hf
    rw [hcf, min_eq_right (by linarith), max_eq_right hd1]
  · intro h0 h1
    rw [hcf, min_eq_left h1, max_eq_right h0]

/-- Witness for C7: on the test engine (duration 300), seeking to -5
clamps to 0 and seeking to 400 clamps to 299. -/
theorem flare_C7_witness :
    ((AnimationEngine.seekToFrame (AnimationEngine.mkEngine tlC2 [circleEl, rectEl])
        (-5)).1).currentFrame = 0 ∧
    ((AnimationEngine.seekToFrame (AnimationEngine.mkEngine tlC2 [circleEl, rectEl])
        400).1).currentFrame = (AnimationEngine.mkEngine tlC2 [circleEl, rectEl]).timeline.duration - 1 :=
  ⟨(flare_C7_seekToFrame_clamps _ (-5) (by norm_num [tlC2, AnimationEngine.mkEngine])).2.2.1
      (by norm_num),
   (flare_C7_seekToFrame_clamps _ 400 (by norm_num [tlC2, AnimationEngine.mkEngine])).2.2.2.1
      (by norm_num [tlC2, AnimationEngine.mkEngine])⟩

/-! ## Claim C3 -/

/-- The bracketing pair returned by findBracket satisfies the inclusive
range condition. -/
theorem findBracket_spec (frameStart cf : ℚ) (ks : List Keyframe) (k1 k2 : Keyframe)
    (h : findBracket frameStart cf ks = some (k1, k2)) :
    qadd frameStart k1.frame ≤ cf ∧ cf ≤ qadd frameStart k2.frame := by
  induction ks with
  | nil => simp [findBracket] at h
  | cons a l ih =>
      cases l with
      | nil => simp [findBracket] at h
      | cons b l2 =>
          rw [findBracket] at h
          by_cases hc : qadd frameStart a.frame ≤ cf ∧ cf ≤ qadd frameStart b.frame
          · rw [if_pos hc] at h
            obtain ⟨h1, h2⟩ := Prod.mk.injEq .. ▸ Option.some.injEq .. ▸ h
            injection h with h
            injection h with h1 h2
            rw [← h1, ← h2]
            exact hc
          · rw [if_neg hc] at h
            exact ih h

theorem splitOnDot_ne_nil (l acc : List Char) : splitOnDot l acc ≠ [] := by
  induction l generalizing acc with
  | nil => simp [splitOnDot]
  | cons c cs ih =>
      by_cases h : c = '.'
      · simp [splitOnDot, h]
      · simp only [splitOnDot, h, if_false]
        exact ih _

/-- Writing a dotted path and reading it back yields the written value. -/
theorem getSet_walk (parts : List String) :
    parts ≠ [] → ∀ (fields : List (String × PValue)) (v : PValue),
      getNestedWalk parts (.pobj (setNestedWalk parts fields v)) = some v := by
  induction parts with
  | nil => intro h; exact absurd rfl h
  | cons p rest ih =>
      intro _ fields v
      cases rest with
      | nil =>
          show getNestedWalk [p] (.pobj (setKey fields p v)) = some v
          simp [getNestedWalk, lookupKey_setKey_self]
      | cons q rs =>
          show getNestedWalk (p :: q :: rs)
              (.pobj (setKey fields p (.pobj (setNestedWalk (q :: rs) _ v)))) = some v
          simp only [getNestedWalk, lookupKey_setKey_self]
          exact ih (by simp) _ v

theorem getNested_setNested (props : List (String × PValue)) (path : String) (v : PValue) :
    getNestedProperty (setNestedProperty props path v) path = some v := by
  unfold getNestedProperty setNestedProperty
  exact getSet_walk _ (splitOnDot_ne_nil path.toList []) props v

/-- C3 counterexample: with two keyframes sharing absolute frame 10 and
numeric values 1 and 2, the resolved property at frame 10 is NaN, not the
end keyframe value 2 — the division by zero is not guarded. -/
theorem flare_C3_counterexample :
    getNestedProperty (interpolateElement 0 10 c3elem).properties "x" = some (.pnum .nan) ∧
    getNestedProperty (interpolateElement 0 10 c3elem).properties "x"
      ≠ some (.pnum (num 2)) := by
  refine ⟨rfl, ?_⟩
  intro h
  rw [show getNestedProperty (interpolateElement 0 10 c3elem).properties "x"
      = some (.pnum .nan) from rfl] at h
  simp at h

/-- C3 amended: when the bracketing keyframe pair shares the same absolute
frame and both values are numbers, the progress is 0/0 = NaN (no guard in
the code), NaN propagates through every easing the registry can return,
and the resolved property is NaN rather than the end keyframe's value. -/
theorem flare_C3_amended (frameStart cf : ℚ) (e : ElementObj) (anim : PropertyAnimation)
    (k1 k2 : Keyframe) (a b : JSNum)
    (he : e.animations = some [anim])
    (hb : findBracket frameStart cf anim.keyframes = some (k1, k2))
    (hf : k1.frame = k2.frame)
    (ha : k1.value = .pnum a) (hbv : k2.value = .pnum b) :
    getNestedProperty (interpolateElement frameStart cf e).properties anim.property
      = some (.pnum .nan) := by
  have hrange := findBracket_spec frameStart cf anim.keyframes k1 k2 hb
  have hse : qadd frameStart k1.frame = qadd frameStart k2.frame := by rw [hf]
  have hcf : cf = qadd frameStart k1.frame := by
    have h2 : cf ≤ qadd frameStart k1.frame := hse ▸ hrange.2
    exact le_antisymm h2 hrange.1
  have hz : qsub cf (qadd frameStart k1.frame) = 0 := by
    rw [qsub_eq, hcf, sub_self]
  have hz2 : qsub (qadd frameStart k2.frame) (qadd frameStart k1.frame) = 0 := by
    rw [qsub_eq, ← hse, sub_self]
  unfold interpolateElement
  rw [he]
  show getNestedProperty
      (applyOneAnimation frameStart cf e.properties anim) anim.property = some (.pnum .nan)
  unfold applyOneAnimation
  rw [hb]
  simp only [ha, hbv, hz, hz2]
  rw [show jdiv (.num (0 : ℚ)) (.num (0 : ℚ)) = JSNum.nan from rfl]
  rw [getEasingFunction_nan]
  rw [jmul_nan, jadd_nan]
  exact getNested_setNested _ _ _

/-- Witness for the amended C3 at the concrete degenerate element. -/
theorem flare_C3_witness :
    getNestedProperty (interpolateElement 0 10 c3elem).properties c3anim.property
      = some (.pnum .nan) :=
  flare_C3_amended 0 10 c3elem c3anim ⟨10, .pnum (num 1), "linear"⟩
    ⟨10, .pnum (num 2), "linear"⟩ (num 1) (num 2) rfl rfl rfl rfl rfl

/-! ## Claim C1 -/

/-- With no triggers registered, updateFrame dispatches nothing at all:
the only dispatches it can make are trigger actions.  In particular the
`frame_N` one-shot listeners registered by playGroup are never invoked:
checkFrameEvents, the only method that dispatches them, is never called
by updateFrame. -/
theorem mgr_updateFrame_no_triggers {α : Type} (m : Mgr α) (f : ℚ) (h : m.triggers = []) :
    (m.updateFrame f).2 = [] := by
  unfold Mgr.updateFrame Mgr.checkFrameTriggers Mgr.checkRangeTriggers
  dsimp only
  by_cases hc : f = m.currentFrame <;> simp [h, hc]

/-- C1 (code bug): after playSequence of the one-step wait-for-complete
sequence, the one-shot completion callback IS registered under the
frame_40 event and the step waiter listens on animationComplete, but
updateFrame — the only sink of frame changes from ticking or seeking —
dispatches nothing at any frame (there are no triggers, and updateFrame
never invokes frame_N listeners), so seeking to frame 40 dispatches no
animationComplete and the sequence remains stuck at step 0. -/
theorem flare_C1_animationComplete_never_dispatched :
    eC1.mgr.handlersFor "frame_40" = [EngineHandler.groupCompletion "g1"] ∧
    eC1.mgr.handlersFor "animationComplete" = [EngineHandler.seqStepWaiter "seq1" 0] ∧
    (∀ f : ℚ, (eC1.mgr.updateFrame f).2 = []) ∧
    (AnimationEngine.seekToFrame eC1 40).2 = [] ∧
    lookupKey ((AnimationEngine.seekToFrame eC1 40).1).activeSequences "seq1"
      = some ⟨seqC1, 0, 0⟩ := by
  refine ⟨by decide, by decide, ?_, ?_, by rfl⟩
  · intro f
    exact mgr_updateFrame_no_triggers _ f rfl
  · show (eC1.mgr.updateFrame (max 0 (min 40 (qsub eC1.timeline.duration 1)))).2 = []
    exact mgr_updateFrame_no_triggers _ _ rfl

/-! ## Claim C2 -/

/-- Both synthesized keyframes sit at absolute frames 10 and 40; outside
[10, 40] the bracket search finds nothing. -/
theorem c2_bracket_none (f : ℚ) (h : ¬ (10 ≤ f ∧ f ≤ 40)) (k1 k2 : Keyframe)
    (h1 : k1.frame = 10) (h2 : k2.frame = 40) :
    findBracket 0 f [k1, k2] = none := by
  have hcond : ¬ (qadd 0 k1.frame ≤ f ∧ f ≤ qadd 0 k2.frame) := by
    rw [h1, h2, qadd_eq, qadd_eq]
    simpa using h
  rw [findBracket, if_neg hcond]
  rfl

/-- When no animation of the element finds a bracketing pair, the
interpolated properties are the base properties. -/
theorem foldl_applyOne_nobracket (frameStart cf : ℚ) (anims : List PropertyAnimation) :
    ∀ props, (∀ a ∈ anims, findBracket frameStart cf a.keyframes = none) →
      anims.foldl (applyOneAnimation frameStart cf) props = props := by
  induction anims with
  | nil => intro props _; rfl
  | cons a l ih =>
      intro props h
      rw [List.foldl_cons]
      rw [show applyOneAnimation frameStart cf props a = props by
        unfold applyOneAnimation
        rw [h a (List.mem_cons_self _ _)]]
      exact ih _ (fun b hb => h b (List.mem_cons_of_mem _ hb))

theorem interpolateElement_nobracket (frameStart cf : ℚ) (e : ElementObj)
    (anims : List PropertyAnimation) (he : e.animations = some anims)
    (h : ∀ a ∈ anims, findBracket frameStart cf a.keyframes = none) :
    interpolateElement frameStart cf e = e := by
  unfold interpolateElement
  rw [he]
  dsimp only
  rw [foldl_applyOne_nobracket frameStart cf anims e.properties h, ← he]

/-- Outside the keyframe window, the whole resolution pipeline returns
the base circle radius and rect width. -/
theorem c2_resolves_base (ops : RealOps) (f : ℚ) (h0 : 0 ≤ f) (h300 : f < 300)
    (hbr : ¬ (10 ≤ f ∧ f ≤ 40)) :
    c2Radius ops f = some (.pnum (num 50)) ∧ c2Width ops f = some (.pnum (num 100)) := by
  have hMemC : ∀ a ∈ [(⟨"radius",
      [⟨10, .pnum (num 50), "ease-in-out"⟩, ⟨40, .pnum (num 100), "ease-in-out"⟩]⟩ :
        PropertyAnimation),
      ⟨"width", [⟨10, .pnum (num 0), "ease-in-out"⟩, ⟨40, .pnum (num 0), "ease-in-out"⟩]⟩],
      findBracket 0 f a.keyframes = none := by
    intro a ha
    simp only [List.mem_cons, List.not_mem_nil, or_false] at ha
    rcases ha with rfl | rfl
    · exact c2_bracket_none f hbr _ _ rfl rfl
    · exact c2_bracket_none f hbr _ _ rfl rfl
  have hMemR : ∀ a ∈ [(⟨"radius",
      [⟨10, .pnum (num 0), "ease-in-out"⟩, ⟨40, .pnum (num 0), "ease-in-out"⟩]⟩ :
        PropertyAnimation),
      ⟨"width", [⟨10, .pnum (num 100), "ease-in-out"⟩, ⟨40, .pnum (num 200), "ease-in-out"⟩]⟩],
      findBracket 0 f a.keyframes = none := by
    intro a ha
    simp only [List.mem_cons, List.not_mem_nil, or_false] at ha
    rcases ha with rfl | rfl
    · exact c2_bracket_none f hbr _ _ rfl rfl
    · exact c2_bracket_none f hbr _ _ rfl rfl
  have hiC : interpolateElement 0 f circleAfterC2 = circleAfterC2 :=
    interpolateElement_nobracket 0 f circleAfterC2 _ rfl hMemC
  have hiR : interpolateElement 0 f rectAfterC2 = rectAfterC2 :=
    interpolateElement_nobracket 0 f rectAfterC2 _ rfl hMemR
  have hframe : findActiveFrame f [(⟨0, 300, [0, 1]⟩ : TFrame)] = some ⟨0, 300, [0, 1]⟩ := by
    rw [findActiveFrame, if_pos]
    refine ⟨h0, ?_⟩
    show f < qadd 0 300
    rw [qadd_eq]
    linarith
  have hres : c2Resolved ops f
      = ([circleAfterC2, rectAfterC2, circleAfterC2, rectAfterC2], [2, 3]) := by
    unfold c2Resolved getCurrentElementsStore
    rw [show eC2.store = [circleAfterC2, rectAfterC2] from rfl,
      show eC2.pathMgr = ⟨[], []⟩ from rfl,
      show tlC2.layers = [⟨"testLayer", "normal", true, false, [⟨0, 300, [0, 1]⟩]⟩] from rfl]
    rw [getCurrentElementsGo]
    simp only [if_true]
    rw [hframe]
    simp [applyAnimationsStore, applyPathAnimationsStore, getCurrentElementsGo, hiC, hiR,
      List.getD]
  constructor
  · unfold c2Radius
    rw [hres]
    rfl
  · unfold c2Width
    rw [hres]
    rfl

/-- C2 counterexample: at frame 41 (≥ 41, after the last synthesized
keyframe) the circle's resolved radius is its pre-group value 50, not the
doubled value 100 the claim asserts. -/
theorem flare_C2_counterexample :
    c2Radius ⟨fun _ => .nan, fun _ _ => .nan, .nan⟩ 41 = some (.pnum (num 50)) ∧
    c2Radius ⟨fun _ => .nan, fun _ _ => .nan, .nan⟩ 41 ≠ some (.pnum (num 100)) := by
  refine ⟨rfl, ?_⟩
  intro h
  rw [show c2Radius ⟨fun _ => .nan, fun _ _ => .nan, .nan⟩ 41 = some (.pnum (num 50))
    from rfl] at h
  simp at h

/-- C2 amended: the synthesis writes exactly two keyframes per group
property — the current value at groupStart+delay = 10 and, for numbers,
its double at groupStart+delay+duration = 40; the resolved properties are
doubled exactly at frame 40; at frames ≥ 41 (inside the containing frame
span, which ends at 300) the interpolator finds no bracketing pair and
the properties revert to their pre-group values; before frame 10 they are
unchanged. -/
theorem flare_C2_amended (ops : RealOps) :
    eC2.store = [circleAfterC2, rectAfterC2] ∧
    (c2Radius ops 40 = some (.pnum (num 100)) ∧ c2Width ops 40 = some (.pnum (num 200))) ∧
    (∀ f : ℚ, 41 ≤ f → f < 300 →
      c2Radius ops f = some (.pnum (num 50)) ∧ c2Width ops f = some (.pnum (num 100))) ∧
    (∀ f : ℚ, 0 ≤ f → f < 10 →
      c2Radius ops f = some (.pnum (num 50)) ∧ c2Width ops f = some (.pnum (num 100))) := by
  refine ⟨rfl, ⟨rfl, rfl⟩, ?_, ?_⟩
  · intro f h41 h300
    exact c2_resolves_base ops f (by linarith) h300 (by rintro ⟨-, h2⟩; linarith)
  · intro f h0 h10
    exact c2_resolves_base ops f h0 (by linarith) (by rintro ⟨h1, -⟩; linarith)

/-- Witness for the amended C2 at frames 45 and 5. -/
theorem flare_C2_witness :
    c2Radius ⟨fun _ => .nan, fun _ _ => .nan, .nan⟩ 45 = some (.pnum (num 50)) ∧
    c2Width ⟨fun _ => .nan, fun _ _ => .nan, .nan⟩ 5 = some (.pnum (num 100)) :=
  ⟨((flare_C2_amended _).2.2.1 45 (by norm_num) (by norm_num)).1,
   ((flare_C2_amended _).2.2.2 5 (by norm_num) (by norm_num)).2⟩

/-! ## Claim C4 -/

/-- Setting an index at or beyond the taken length does not change the
taken part. -/
theorem take_set_of_le {α : Type} (a : α) (n m : ℕ) (l : List α) (h : m ≤ n) :
    (l.set n a).take m = l.take m := by
  induction l generalizing n m with
  | nil => simp
  | cons x xs ih =>
      cases n with
      | zero =>
          have : m = 0 := Nat.le_zero.mp h
          simp [this]
      | succ n2 =>
          cases m with
          | zero => simp
          | succ m2 =>
              simp only [List.set_cons_succ, List.take_succ_cons]
              rw [ih n2 m2 (Nat.succ_le_succ_iff.mp h)]

/-- applyAnimationsStore only appends fresh clones: the result extends the
input store and every returned address is at or beyond its length. -/
theorem applyAnimationsStore_spec (frameStart cf : ℚ) :
    ∀ (addrs : List ℕ) (store : Store),
      (∃ ext, (applyAnimationsStore frameStart cf addrs store).1 = store ++ ext) ∧
      (∀ x ∈ (applyAnimationsStore frameStart cf addrs store).2, store.length ≤ x) := by
  intro addrs
  induction addrs with
  | nil =>
      intro store
      exact ⟨⟨[], by simp [applyAnimationsStore]⟩, by simp [applyAnimationsStore]⟩
  | cons a rest ih =>
      intro store
      obtain ⟨⟨ext, hext⟩, hmem⟩ :=
        ih (store ++ [interpolateElement frameStart cf (store.getD a dfltElem)])
      rw [applyAnimationsStore]
      dsimp only
      constructor
      · refine ⟨[interpolateElement frameStart cf (store.getD a dfltElem)] ++ ext, ?_⟩
        rw [hext, List.append_assoc]
      · intro x hx
        rcases List.mem_cons.mp hx with rfl | hx2
        · exact le_refl _
        · have h2 := hmem x hx2
          rw [List.length_append] at h2
          omega

/-- Every value in the id-to-address map built by applyPathAnimationsStore
comes from the clone address list. -/
theorem emap_values (store : Store) :
    ∀ (addrs : List ℕ) (m0 : List (String × ℕ)) (p : String × ℕ),
      p ∈ addrs.foldl (fun m a => setKey m (store.getD a dfltElem).id a) m0 →
      p ∈ m0 ∨ p.2 ∈ addrs := by
  intro addrs
  induction addrs with
  | nil => intro m0 p h; exact Or.inl h
  | cons a rest ih =>
      intro m0 p h
      rw [List.foldl_cons] at h
      rcases ih _ p h with h2 | h2
      · rcases setKey_mem _ _ _ _ h2 with h3 | h3
        · exact Or.inl h3
        · right
          rw [h3]
          exact List.mem_cons_self _ _
      · right
        exact List.mem_cons_of_mem _ h2

/-- The path-animation fold only writes at addresses drawn from the
id-to-address map: the prefix below any bound on those addresses and the
store length are preserved. -/
theorem pathFold_spec (ops : RealOps) (paths : List (String × VPath)) (cf : ℚ)
    (emap : List (String × ℕ)) (n : ℕ) (hval : ∀ p ∈ emap, n ≤ p.2) :
    ∀ (anims : List PathAnimation) (st : Store),
      ((anims.foldl (fun st anim =>
        if anim.startFrame ≤ cf ∧ cf < qadd anim.startFrame anim.duration then
          match lookupKey emap anim.elementId with
          | none => st
          | some a =>
              match lookupKey paths anim.options.pathId with
              | none => st
              | some p => st.set a (pathUpdateElement ops p anim cf (st.getD a dfltElem))
        else st) st).take n = st.take n) ∧
      ((anims.foldl (fun st anim =>
        if anim.startFrame ≤ cf ∧ cf < qadd anim.startFrame anim.duration then
          match lookupKey emap anim.elementId with
          | none => st
          | some a =>
              match lookupKey paths anim.options.pathId with
              | none => st
              | some p => st.set a (pathUpdateElement ops p anim cf (st.getD a dfltElem))
        else st) st).length = st.length) := by
  intro anims
  induction anims with
  | nil => intro st; exact ⟨rfl, rfl⟩
  | cons anim rest ih =>
      intro st
      rw [List.foldl_cons]
      by_cases hw : anim.startFrame ≤ cf ∧ cf < qadd anim.startFrame anim.duration
      · rw [if_pos hw]
        cases hm : lookupKey emap anim.elementId with
        | none => exact ih st
        | some a =>
            cases hp : lookupKey paths anim.options.pathId with
            | none => exact ih st
            | some p =>
                have hna : n ≤ a := hval _ (lookupKey_mem _ _ _ hm)
                obtain ⟨ih1, ih2⟩ :=
                  ih (st.set a (pathUpdateElement ops p anim cf (st.getD a dfltElem)))
                refine ⟨?_, ?_⟩
                · rw [ih1, take_set_of_le _ _ _ _ hna]
                · rw [ih2, List.length_set]
      · rw [if_neg hw]
        exact ih st

/-- applyPathAnimationsStore preserves the prefix below a bound that is
below every clone address, and the store length. -/
theorem applyPathAnimationsStore_spec (ops : RealOps) (pm : PathMgr) (cf : ℚ)
    (addrs : List ℕ) (n : ℕ) (store : Store) (h : ∀ a ∈ addrs, n ≤ a) :
    (applyPathAnimationsStore ops pm cf addrs store).take n = store.take n ∧
    (applyPathAnimationsStore ops pm cf addrs store).length = store.length := by
  unfold applyPathAnimationsStore
  have hval : ∀ p ∈ (addrs.foldl (fun m a => setKey m (store.getD a dfltElem).id a)
      ([] : List (String × ℕ))), n ≤ p.2 := by
    intro p hp
    rcases emap_values store addrs [] p hp with h2 | h2
    · simp at h2
    · exact h _ h2
  exact pathFold_spec ops pm.paths cf _ n hval pm.pathAnimations store

/-- The layer fold of getCurrentElements never touches the original
store prefix and returns only fresh addresses. -/
theorem getCurrentElementsGo_spec (ops : RealOps) (pm : PathMgr) (cf : ℚ) :
    ∀ (layers : List TLayer) (store : Store),
      ((getCurrentElementsGo ops pm cf layers store).1.take store.length = store) ∧
      (store.length ≤ (getCurrentElementsGo ops pm cf layers store).1.length) ∧
      (∀ a ∈ (getCurrentElementsGo ops pm cf layers store).2, store.length ≤ a) := by
  intro layers
  induction layers with
  | nil =>
      intro store
      refine ⟨?_, ?_, ?_⟩ <;> simp [getCurrentElementsGo]
  | cons layer rest ih =>
      intro store
      rw [getCurrentElementsGo]
      by_cases hv : layer.visible
      · simp only [hv, if_true]
        cases hfr : findActiveFrame cf layer.frames with
        | none => exact ih store
        | some fr =>
            dsimp only
            obtain ⟨⟨ext, hext⟩, hmem1⟩ :=
              applyAnimationsStore_spec fr.startFrame cf fr.elemAddrs store
            obtain ⟨hpt, hpl⟩ := applyPathAnimationsStore_spec ops pm cf
              (applyAnimationsStore fr.startFrame cf fr.elemAddrs store).2 store.length
              (applyAnimationsStore fr.startFrame cf fr.elemAddrs store).1 hmem1
            set st2 := applyPathAnimationsStore ops pm cf
              (applyAnimationsStore fr.startFrame cf fr.elemAddrs store).2
              (applyAnimationsStore fr.startFrame cf fr.elemAddrs store).1 with hst2
            have hst2take : st2.take store.length = store := by
              rw [hpt, hext, List.take_left']
              rfl
            have hst2len : store.length ≤ st2.length := by
              rw [hpl, hext, List.length_append]
              omega
            obtain ⟨iht, ihlen, ihmem⟩ := ih st2
            refine ⟨?_, ?_, ?_⟩
            · have hmin : store.length ≤ st2.length := hst2len
              rw [show (getCurrentElementsGo ops pm cf rest st2).1.take store.length
                  = ((getCurrentElementsGo ops pm cf rest st2).1.take st2.length).take
                      store.length by rw [List.take_take, min_eq_left hmin]]
              rw [iht, hst2take]
            · exact le_trans hst2len ihlen
            · intro a ha
              rcases List.mem_append.mp ha with ha1 | ha2
              · exact hmem1 a ha1
              · exact le_trans hst2len (ihmem a ha2)
      · simp only [hv, if_false]
        exact ih store

/-- C4: getCurrentElements never mutates the canonical timeline elements:
for every timeline, path registry and frame, the input store is an
untouched prefix of the output store, every returned element address is a
fresh one (allocated by the deep copy made before any property is
written), and no returned element address is an address the timeline
references. -/
theorem flare_C4_no_timeline_mutation (ops : RealOps) (tl : TimelineM) (pm : PathMgr)
    (cf : ℚ) (store : Store)
    (hvalid : ∀ l ∈ tl.layers, ∀ fr ∈ l.frames, ∀ a ∈ fr.elemAddrs, a < store.length) :
    ((getCurrentElementsStore ops tl pm cf store).1.take store.length = store) ∧
    (∀ a ∈ (getCurrentElementsStore ops tl pm cf store).2, store.length ≤ a) ∧
    (∀ l ∈ tl.layers, ∀ fr ∈ l.frames, ∀ a ∈ fr.elemAddrs,
      a ∉ (getCurrentElementsStore ops tl pm cf store).2) := by
  obtain ⟨h1, _, h3⟩ := getCurrentElementsGo_spec ops pm cf tl.layers store
  refine ⟨h1, h3, ?_⟩
  intro l hl fr hfr a ha hmem
  exact absurd (h3 a hmem) (not_le.mpr (hvalid l hl fr hfr a ha))

/-- Witness for C4 on the concrete test timeline and store. -/
theorem flare_C4_witness :
    ((getCurrentElementsStore ⟨fun _ => .nan, fun _ _ => .nan, .nan⟩ tlC2 ⟨[], []⟩ 0
        [circleEl, rectEl]).1.take 2 = [circleEl, rectEl]) :=
  (flare_C4_no_timeline_mutation ⟨fun _ => .nan, fun _ _ => .nan, .nan⟩ tlC2 ⟨[], []⟩ 0
    [circleEl, rectEl] (by decide)).1
